import Mathlib

/-!
# Verification of the patient-record store (`src/Codes/classes.py`, `src/Codes/functions.py`)

Shallow embedding of the in-memory record store (`VisitRecord`, `PatientRecord`,
`PatientDatabase`), its CSV load/save layer, the credentials manager, and the two
date-parsing routines, together with theorems settling the frozen claims.

Python `dict`s (which preserve insertion order) are modelled as insertion-ordered
association lists with string keys; `dset` mirrors `d[k] = v` (overwrite in place,
append when new) and `dupdate` mirrors `d.update(other)`.  String values model the
`Any`-typed CSV cell values (every value the program ever stores comes from a CSV
cell or a string literal); the CSV layer is modelled at the parsed-row level
(header plus rows of cell strings), which the Python `csv` module round-trips
faithfully.  A missing cell (Python `None`, falsy exactly like `""`) is modelled
as the empty string.
-/

namespace ClassRepo

/-- Insertion-ordered association list standing for a Python `dict[str, α]`. -/
abbrev Dict (α : Type) : Type := List (String × α)

/-- `d.get(k)` / `d[k]`: value at the first occurrence of key `k`. -/
def dget {α : Type} (m : Dict α) (k : String) : Option α :=
  match m with
  | [] => none
  | (k', v) :: rest => if k' = k then some v else dget rest k

/-- `k in d`. -/
def dmem {α : Type} (m : Dict α) (k : String) : Bool :=
  (dget m k).isSome

/-- `d[k] = v`: overwrite the first occurrence in place, else append at the end
(Python dicts keep the original insertion position on overwrite). -/
def dset {α : Type} (m : Dict α) (k : String) (v : α) : Dict α :=
  match m with
  | [] => [(k, v)]
  | (k', v') :: rest => if k' = k then (k', v) :: rest else (k', v') :: dset rest k v

/-- `d.update(other)`: `d[k] = v` for each item of `other` in order. -/
def dupdate {α : Type} (m other : Dict α) : Dict α :=
  other.foldl (fun acc p => dset acc p.1 p.2) m

/-- Mutation of the value stored under an existing key (Python mutates the aliased
value object in place, leaving the key's position unchanged). -/
def dmodify {α : Type} (m : Dict α) (k : String) (f : α → α) : Dict α :=
  match m with
  | [] => []
  | (k', v) :: rest =>
    if k' = k then (k', f v) :: dmodify rest k f else (k', v) :: dmodify rest k f

/-- The dict built by inserting a list of items one by one into `{}`
(e.g. `dict(zip(header, row))` inside `csv.DictReader`). -/
def fromItems {α : Type} (l : List (String × α)) : Dict α :=
  l.foldl (fun acc p => dset acc p.1 p.2) []

/-- Key list of a dict. -/
def dkeys {α : Type} (m : Dict α) : List String :=
  m.map (·.1)

/-! ## Python string helpers -/

/-- ASCII whitespace stripped by `str.strip()`. -/
def isPySpace (c : Char) : Bool :=
  c = ' ' || c = '\t' || c = '\n' || c = '\x0d' || c = '\x0b' || c = '\x0c'

/-- `str.strip()` on the character list. -/
def stripChars (l : List Char) : List Char :=
  ((l.dropWhile isPySpace).reverse.dropWhile isPySpace).reverse

/-- `s.strip()`. -/
def pyStrip (s : String) : String :=
  ⟨stripChars s.data⟩

/-- `s.lower()` (ASCII letters; the credential usernames are ASCII). -/
def pyLower (s : String) : String :=
  ⟨s.data.map Char.toLower⟩

/-- `s.split("/")`: split at every `'/'`, keeping empty pieces, never empty. -/
def splitSlash : List Char → List (List Char)
  | [] => [[]]
  | c :: rest =>
    let r := splitSlash rest
    if c = '/' then [] :: r
    else
      match r with
      | [] => [[c]]
      | h :: t => (c :: h) :: t

/-- Numeric value of a digit string (most significant first). -/
def digitsToNat (l : List Char) : Nat :=
  l.foldl (fun a c => a * 10 + (c.toNat - '0'.toNat)) 0

/-- Tail of a Python `int()` digit part: digits with single underscores allowed
only between digits. -/
def digitsTail : List Char → Bool
  | [] => true
  | ['_'] => false
  | '_' :: c :: rest => c.isDigit && digitsTail rest
  | c :: rest => c.isDigit && digitsTail rest

/-- A valid Python `int()` digit part: nonempty, underscores only between digits. -/
def digitsPart (l : List Char) : Bool :=
  match l with
  | [] => false
  | c :: rest => c.isDigit && digitsTail rest

/-- `int(s)` for a decimal string: strips whitespace, allows one leading sign,
digits with underscores in between; `none` models `ValueError`. -/
def pyInt (l : List Char) : Option Int :=
  match stripChars l with
  | '+' :: rest =>
    if digitsPart rest then some (digitsToNat (rest.filter (· ≠ '_'))) else none
  | '-' :: rest =>
    if digitsPart rest then some (-(digitsToNat (rest.filter (· ≠ '_')) : Int)) else none
  | l' => if digitsPart l' then some (digitsToNat (l'.filter (· ≠ '_'))) else none

/-! ## Calendar dates -/

/-- A calendar date as produced by `datetime.date`. -/
structure Date where
  year : Nat
  month : Nat
  day : Nat
deriving DecidableEq, Repr

/-- Gregorian leap-year rule used by `datetime`. -/
def isLeap (y : Nat) : Bool :=
  (y % 4 = 0 && y % 100 ≠ 0) || y % 400 = 0

/-- Days in a month, as validated by the `datetime.date` constructor. -/
def daysInMonth (y m : Nat) : Nat :=
  if m = 2 then (if isLeap y then 29 else 28)
  else if m = 4 || m = 6 || m = 9 || m = 11 then 30
  else 31

/-- `datetime.date(year, month, day)`: `none` models the `ValueError` raised on
out-of-range components (`MINYEAR = 1`, `MAXYEAR = 9999`). -/
def mkDate (y m d : Int) : Option Date :=
  if 1 ≤ y && y ≤ 9999 && 1 ≤ m && m ≤ 12 && 1 ≤ d && d ≤ (daysInMonth y.toNat m.toNat : Int) then
    some ⟨y.toNat, m.toNat, d.toNat⟩
  else none

/-- `datetime.strptime(s, "%m/%d/%Y").date()`: the `%m` and `%d` directives match
one or two digits (values 1–12 / 1–31, `00` excluded by the value check), `%Y`
exactly four digits, the whole string must be consumed, and the resulting
components are validated by the `datetime` constructor.  `none` models
`ValueError`. -/
def strptimeMDY (s : String) : Option Date :=
  match splitSlash s.data with
  | [ms, ds, ys] =>
    if (ms.all Char.isDigit && 1 ≤ ms.length && ms.length ≤ 2)
        && (ds.all Char.isDigit && 1 ≤ ds.length && ds.length ≤ 2)
        && (ys.all Char.isDigit && ys.length = 4) then
      mkDate (digitsToNat ys) (digitsToNat ms) (digitsToNat ds)
    else none
  | _ => none

/-- The date parse inside `view_notes` (`src/Codes/functions.py`):
`month, day, year = map(int, visit_time.split("/"))` then `date(year, month, day)`,
with every exception caught (`none`). -/
def viewNotesParseDate (vt : String) : Option Date :=
  match splitSlash vt.data with
  | [ms, ds, ys] =>
    match pyInt ms, pyInt ds, pyInt ys with
    | some m, some d, some y => mkDate y m d
    | _, _, _ => none
  | _ => none

/-! ## Record model (`classes.py`) -/

/-- `VisitRecord`: core visit data plus all associated notes. -/
structure VisitRecord where
  data : Dict String
  notes : List (Dict String)
deriving DecidableEq, Repr

/-- `PatientRecord`: a patient and all of their visits. -/
structure PatientRecord where
  patient_id : String
  visits : Dict VisitRecord
deriving DecidableEq, Repr

/-- `PatientRecord.add_visit(visit_id, data, notes=None)`:
create an empty `VisitRecord` when `visit_id` is new, merge `data` into its
fields, and append `notes` when it is truthy (`if notes:` — `None` and the
empty dict both skip the append). -/
def PatientRecord.add_visit (pr : PatientRecord) (visit_id : String)
    (data : Dict String) (notes : Option (Dict String)) : PatientRecord :=
  let visits0 :=
    if dmem pr.visits visit_id then pr.visits
    else dset pr.visits visit_id { data := [], notes := [] }
  let visits1 := dmodify visits0 visit_id (fun vr => { vr with data := dupdate vr.data data })
  let visits2 :=
    match notes with
    | some n => if n.isEmpty then visits1
                else dmodify visits1 visit_id (fun vr => { vr with notes := vr.notes ++ [n] })
    | none => visits1
  { pr with visits := visits2 }

/-- `PatientRecord.add_notes_to_visit(visit_id, notes)`: append to an existing
visit's notes; `(False, unchanged)` when the visit is absent (a `VisitRecord`
instance is always truthy, so `if not record` only fires on `None`). -/
def PatientRecord.add_notes_to_visit (pr : PatientRecord) (visit_id : String)
    (notes : Dict String) : Bool × PatientRecord :=
  match dget pr.visits visit_id with
  | none => (false, pr)
  | some _ =>
    let visits' := dmodify pr.visits visit_id (fun vr => { vr with notes := vr.notes ++ [notes] })
    (true, { pr with visits := visits' })

/-- `PatientDatabase`: in-memory database keyed by patient id. -/
structure PatientDatabase where
  patients : Dict PatientRecord
deriving DecidableEq, Repr

/-- `PatientDatabase.get_patient(patient_id)`. -/
def PatientDatabase.get_patient (db : PatientDatabase) (patient_id : String) :
    Option PatientRecord :=
  dget db.patients patient_id

/-- `PatientDatabase.retrieve_patient_info(patient_id, info_key)`: `None` when the
patient is absent (`if not record` — a `PatientRecord` is always truthy);
otherwise, across visits in map-iteration order, append the visit's field value
when present, then each note's value when the note has the key.  Pure query, no
side effects on the database. -/
def PatientDatabase.retrieve_patient_info (db : PatientDatabase)
    (patient_id info_key : String) : Option (List String) :=
  match db.get_patient patient_id with
  | none => none
  | some record =>
    some (record.visits.foldl (fun result p =>
      let result :=
        match dget p.2.data info_key with
        | some v => result ++ [v]
        | none => result
      p.2.notes.foldl (fun result note =>
        match dget note info_key with
        | some v => result ++ [v]
        | none => result) result) [])

/-- `PatientDatabase.count_visits_in_day(day_str)`: `None` when the stripped input
does not `strptime`-parse; otherwise a nested scan counting visits whose own
(stripped) `Visit_time` parses to the same date, skipping unparsable ones. -/
def PatientDatabase.count_visits_in_day (db : PatientDatabase) (day_str : String) :
    Option Nat :=
  match strptimeMDY (pyStrip day_str) with
  | none => none
  | some target =>
    some (db.patients.foldl (fun total p =>
      p.2.visits.foldl (fun total q =>
        match strptimeMDY (pyStrip ((dget q.2.data "Visit_time").getD "")) with
        | none => total
        | some visit_date => if visit_date = target then total + 1 else total) total) 0)

/-! ## CSV layer -/

/-- A CSV file at the parsed level: header plus rows of cell strings. -/
structure CsvFile where
  header : List String
  rows : List (List String)
deriving DecidableEq, Repr

/-- One `csv.DictReader` row: `dict(zip(header, row))`, short rows padded with
the empty string (modelling `restval=None`, which every consumer treats exactly
like an empty cell), extra cells dropped. -/
def readerRow (header row : List String) : Dict String :=
  fromItems (header.zip (row ++ List.replicate header.length ""))

/-- One `csv.DictWriter.writerow`: cells in `fieldnames` order, missing keys as
`restval=''`; `none` models the `ValueError` raised (default
`extrasaction='raise'`) when the row has a key outside `fieldnames`. -/
def writeRow (fieldnames : List String) (row : Dict String) : Option (List String) :=
  if row.all (fun p => fieldnames.contains p.1) then
    some (fieldnames.map (fun f => (dget row f).getD ""))
  else none

/-- Loop body of `PatientDatabase.load_data`: rows lacking a truthy
`Patient_ID`/`Visit_ID` are skipped; the remaining columns become the visit's
fields via `setdefault` + `add_visit`. -/
def load_data_row (header : List String) (db : PatientDatabase) (row : List String) :
    PatientDatabase :=
  let r := readerRow header row
  let pid := (dget r "Patient_ID").getD ""
  let vid := (dget r "Visit_ID").getD ""
  if pid = "" || vid = "" then db
  else
    let data := r.filter (fun p => p.1 ≠ "Patient_ID" && p.1 ≠ "Visit_ID")
    let rec0 := (dget db.patients pid).getD { patient_id := pid, visits := [] }
    let rec1 := rec0.add_visit vid data none
    { patients := dset db.patients pid rec1 }

/-- `PatientDatabase.load_data(file_path)`: no-op on a missing file (`none`),
otherwise process every `DictReader` row in order. -/
def PatientDatabase.load_data (db : PatientDatabase) (file : Option CsvFile) :
    PatientDatabase :=
  match file with
  | none => db
  | some f => f.rows.foldl (load_data_row f.header) db

/-- Loop body of `PatientDatabase.load_notes_data`: rows need truthy
`Patient_ID`, `Visit_ID`, `Note_ID`; patient and visit are created on demand
(`setdefault`) and the note `{Note_ID, Note_text}` is appended. -/
def load_notes_row (header : List String) (db : PatientDatabase) (row : List String) :
    PatientDatabase :=
  let r := readerRow header row
  let pid := (dget r "Patient_ID").getD ""
  let vid := (dget r "Visit_ID").getD ""
  let note_id := (dget r "Note_ID").getD ""
  let note_text := (dget r "Note_text").getD ""
  if pid = "" || vid = "" || note_id = "" then db
  else
    let notes : Dict String := [("Note_ID", note_id), ("Note_text", note_text)]
    let patient := (dget db.patients pid).getD { patient_id := pid, visits := [] }
    let visit := (dget patient.visits vid).getD { data := [], notes := [] }
    let visit' := { visit with notes := visit.notes ++ [notes] }
    let patient' := { patient with visits := dset patient.visits vid visit' }
    { patients := dset db.patients pid patient' }

/-- `PatientDatabase.load_notes_data(file_path)`: no-op on a missing file,
otherwise process every `DictReader` row in order. -/
def PatientDatabase.load_notes_data (db : PatientDatabase) (file : Option CsvFile) :
    PatientDatabase :=
  match file with
  | none => db
  | some f => f.rows.foldl (load_notes_row f.header) db

/-- `PatientDatabase.get_visit_data_rows()`: one flat dict per (patient, visit),
`{"Patient_ID": ..., "Visit_ID": ..., **vr.data}`. -/
def PatientDatabase.get_visit_data_rows (db : PatientDatabase) : List (Dict String) :=
  db.patients.foldl (fun rows p =>
    rows ++ p.2.visits.map (fun q =>
      dupdate [("Patient_ID", p.2.patient_id), ("Visit_ID", q.1)] q.2.data)) []

/-- `PatientDatabase.get_visit_notes_rows()`: one flat dict per note,
`{"Patient_ID": ..., "Visit_ID": ..., **note}`. -/
def PatientDatabase.get_visit_notes_rows (db : PatientDatabase) : List (Dict String) :=
  db.patients.foldl (fun rows p =>
    rows ++ p.2.visits.foldl (fun rows q =>
      rows ++ q.2.notes.map (fun note =>
        dupdate [("Patient_ID", p.2.patient_id), ("Visit_ID", q.1)] note)) []) []

/-- `PatientDatabase.save_visit_data(file_path, fieldnames)`: truncate and rewrite
header plus all visit rows through `csv.DictWriter`; `none` models the
`ValueError` escaping when a row holds a key outside `fieldnames`. -/
def PatientDatabase.save_visit_data (db : PatientDatabase) (fieldnames : List String) :
    Option CsvFile :=
  (db.get_visit_data_rows.mapM (writeRow fieldnames)).map (fun rows => ⟨fieldnames, rows⟩)

/-- `PatientDatabase.save_visit_notes(file_path)`: fixed four-column schema. -/
def PatientDatabase.save_visit_notes (db : PatientDatabase) : Option CsvFile :=
  (db.get_visit_notes_rows.mapM
    (writeRow ["Patient_ID", "Visit_ID", "Note_ID", "Note_text"])).map
    (fun rows => ⟨["Patient_ID", "Visit_ID", "Note_ID", "Note_text"], rows⟩)

/-! ## Credentials (`CredentialsManager`) -/

/-- One in-memory credential entry. -/
structure Credential where
  password : String
  role : String
deriving DecidableEq, Repr

/-- Loop body of `CredentialsManager._load`: strip and lowercase the username,
strip password and role, keep the row only when all three are truthy. -/
def cred_row_step (header : List String) (creds : Dict Credential) (row : List String) :
    Dict Credential :=
  let r := readerRow header row
  let user := pyLower (pyStrip ((dget r "username").getD ""))
  let pwd := pyStrip ((dget r "password").getD "")
  let role := pyStrip ((dget r "role").getD "")
  if user ≠ "" && pwd ≠ "" && role ≠ "" then
    dset creds user { password := pwd, role := role }
  else creds

/-- `CredentialsManager._load`: `none` models the `ValueError` on missing required
columns; otherwise the rows are folded in file order (last kept row wins per
normalized username). -/
def loadCredentials (header : List String) (rows : List (List String)) :
    Option (Dict Credential) :=
  if header.contains "username" && header.contains "password" && header.contains "role" then
    some (rows.foldl (cred_row_step header) [])
  else none

/-- `CredentialsManager.authenticate(username, password)`: look up the
stripped-lowercased username; `compare_digest` is modelled as string equality
(its timing behaviour is outside the embedding). -/
def authenticate (creds : Dict Credential) (username password : String) :
    Option String :=
  match dget creds (pyLower (pyStrip username)) with
  | none => none
  | some cred => if cred.password = password then some cred.role else none

/-! ## Dictionary lemmas -/

theorem dget_append {α : Type} (l₁ l₂ : Dict α) (k : String) :
    dget (l₁ ++ l₂) k = (dget l₁ k).orElse (fun _ => dget l₂ k) := by
  induction l₁ with
  | nil => simp [dget, Option.orElse]
  | cons p rest ih =>
    obtain ⟨k', v⟩ := p
    by_cases h : k' = k <;> simp [dget, h, ih, Option.orElse]

theorem dget_dset {α : Type} (m : Dict α) (k : String) (v : α) (k' : String) :
    dget (dset m k v) k' = if k = k' then some v else dget m k' := by
  induction m with
  | nil => by_cases h : k = k' <;> simp [dset, dget, h]
  | cons p rest ih =>
    obtain ⟨a, b⟩ := p
    by_cases hak : a = k
    · subst hak
      by_cases h : a = k' <;> simp [dset, dget, h]
    · by_cases h : a = k'
      · subst h
        have hkk : ¬ k = a := fun hh => hak hh.symm
        simp [dset, dget, hak, hkk]
      · simp [dset, dget, hak, h, ih]

theorem dset_absent {α : Type} (m : Dict α) (k : String) (v : α)
    (h : dget m k = none) : dset m k v = m ++ [(k, v)] := by
  induction m with
  | nil => simp [dset]
  | cons p rest ih =>
    obtain ⟨a, b⟩ := p
    by_cases hak : a = k
    · simp [dget, hak] at h
    · simp [dget, hak] at h
      simp [dset, hak, ih h]

theorem dget_dmodify {α : Type} (m : Dict α) (k : String) (f : α → α) (k' : String) :
    dget (dmodify m k f) k' = if k = k' then (dget m k').map f else dget m k' := by
  induction m with
  | nil => by_cases h : k = k' <;> simp [dmodify, dget, h]
  | cons p rest ih =>
    obtain ⟨a, b⟩ := p
    by_cases hak : a = k
    · subst hak
      by_cases h : a = k'
      · subst h; simp [dmodify, dget]
      · simp [dmodify, dget, h, ih]
    · by_cases h : a = k'
      · subst h
        have hkk : ¬ k = a := fun hh => hak hh.symm
        simp [dmodify, dget, hak, hkk]
      · simp [dmodify, dget, hak, h, ih]

theorem dupdate_cons {α : Type} (m : Dict α) (p : String × α) (l : Dict α) :
    dupdate m (p :: l) = dupdate (dset m p.1 p.2) l := rfl

theorem dget_dupdate_rev {α : Type} (m other : Dict α) (k : String) :
    dget (dupdate m other) k = (dget other.reverse k).orElse (fun _ => dget m k) := by
  induction other generalizing m with
  | nil => simp [dupdate, dget, Option.orElse]
  | cons p l ih =>
    rw [dupdate_cons, ih, List.reverse_cons, dget_append]
    cases hl : dget l.reverse k with
    | some v => simp [Option.orElse]
    | none =>
      obtain ⟨a, b⟩ := p
      by_cases h : a = k <;> simp [dget, dget_dset, h, Option.orElse]

theorem dget_eq_none_iff {α : Type} (m : Dict α) (k : String) :
    dget m k = none ↔ k ∉ dkeys m := by
  induction m with
  | nil => simp [dget, dkeys]
  | cons p rest ih =>
    obtain ⟨a, b⟩ := p
    by_cases h : a = k
    · subst h; simp [dget, dkeys]
    · simp [dget, dkeys, h, Ne.symm h, ih]

theorem dget_reverse_of_nodup {α : Type} (m : Dict α) (k : String)
    (h : (dkeys m).Nodup) : dget m.reverse k = dget m k := by
  induction m with
  | nil => rfl
  | cons p rest ih =>
    obtain ⟨a, b⟩ := p
    simp only [dkeys, List.map_cons, List.nodup_cons] at h
    rw [List.reverse_cons, dget_append, ih h.2]
    by_cases hak : a = k
    · subst hak
      have : dget rest a = none := (dget_eq_none_iff rest a).2 (by simpa [dkeys] using h.1)
      simp [this, dget, Option.orElse]
    · cases hr : dget rest k <;> simp [dget, hak, hr, Option.orElse]

theorem dget_dupdate {α : Type} (m other : Dict α) (k : String)
    (h : (dkeys other).Nodup) :
    dget (dupdate m other) k = (dget other k).orElse (fun _ => dget m k) := by
  rw [dget_dupdate_rev, dget_reverse_of_nodup _ _ h]

theorem fromItems_get {α : Type} (l : List (String × α)) (k : String) :
    dget (fromItems l) k = dget l.reverse k := by
  have : fromItems l = dupdate [] l := rfl
  rw [this, dget_dupdate_rev]
  cases h : dget l.reverse k <;> simp [dget, Option.orElse]

theorem fromItems_of_nodup {α : Type} (l : List (String × α))
    (h : (l.map (·.1)).Nodup) : fromItems l = l := by
  induction l using List.reverseRecOn with
  | nil => rfl
  | append_singleton l p ih =>
    have hfold : fromItems (l ++ [p]) = dset (fromItems l) p.1 p.2 := by
      simp [fromItems, List.foldl_append]
    rw [List.map_append, List.nodup_append] at h
    have hl := ih h.1
    have hnotin : p.1 ∉ l.map (·.1) := by
      intro hmem
      exact h.2.2 hmem (by simp)
    have habs : dget l p.1 = none :=
      (dget_eq_none_iff l p.1).2 (by simpa [dkeys] using hnotin)
    rw [hfold, hl, dset_absent _ _ _ habs]

theorem dkeys_dset_absent {α : Type} (m : Dict α) (k : String) (v : α)
    (h : dget m k = none) : dkeys (dset m k v) = dkeys m ++ [k] := by
  rw [dset_absent m k v h]; simp [dkeys]

theorem dkeys_dset_present {α : Type} (m : Dict α) (k : String) (v : α)
    (h : (dget m k).isSome) : dkeys (dset m k v) = dkeys m := by
  induction m with
  | nil => simp [dget] at h
  | cons p rest ih =>
    obtain ⟨a, b⟩ := p
    by_cases hak : a = k
    · simp [dset, dkeys, hak]
    · have h' : (dget rest k).isSome = true := by simpa [dget, hak] using h
      simp only [dkeys] at ih ⊢
      simp [dset, hak, ih h']

theorem dkeys_dmodify {α : Type} (m : Dict α) (k : String) (f : α → α) :
    dkeys (dmodify m k f) = dkeys m := by
  induction m with
  | nil => rfl
  | cons p rest ih =>
    obtain ⟨a, b⟩ := p
    simp only [dkeys] at ih ⊢
    by_cases hak : a = k <;> simp [dmodify, hak, ih]

/-! ## `add_visit` lemmas -/

theorem add_visit_dget_self (pr : PatientRecord) (vid : String) (d : Dict String)
    (n : Option (Dict String)) :
    dget (pr.add_visit vid d n).visits vid =
      some { data := dupdate (((dget pr.visits vid).map VisitRecord.data).getD []) d,
             notes := (((dget pr.visits vid).map VisitRecord.notes).getD []) ++
               (match n with
                | some nn => if nn.isEmpty then [] else [nn]
                | none => []) } := by
  cases hv : dget pr.visits vid with
  | none =>
    cases n with
    | none => simp [PatientRecord.add_visit, dmem, hv, dget_dset, dget_dmodify]
    | some nn =>
      by_cases hnn : nn.isEmpty <;>
        simp [PatientRecord.add_visit, dmem, hv, hnn, dget_dset, dget_dmodify]
  | some vr =>
    cases n with
    | none => simp [PatientRecord.add_visit, dmem, hv, dget_dset, dget_dmodify]
    | some nn =>
      by_cases hnn : nn.isEmpty <;>
        simp [PatientRecord.add_visit, dmem, hv, hnn, dget_dset, dget_dmodify]

theorem add_visit_dget_other (pr : PatientRecord) (vid : String) (d : Dict String)
    (n : Option (Dict String)) (vid' : String) (h : vid ≠ vid') :
    dget (pr.add_visit vid d n).visits vid' = dget pr.visits vid' := by
  cases n with
  | none => by_cases hm : dmem pr.visits vid <;>
      simp [PatientRecord.add_visit, hm, dget_dset, dget_dmodify, h]
  | some nn =>
    by_cases hm : dmem pr.visits vid <;> by_cases hnn : nn.isEmpty <;>
      simp [PatientRecord.add_visit, hm, hnn, dget_dset, dget_dmodify, h]

theorem add_visit_patient_id (pr : PatientRecord) (vid : String) (d : Dict String)
    (n : Option (Dict String)) : (pr.add_visit vid d n).patient_id = pr.patient_id := rfl

/-! ## Concrete sample store (used by the witnesses) -/

def noteW : Dict String := [("Note_ID", "n1"), ("Note_text", "hello")]

def noteW2 : Dict String := [("Note_ID", "n2"), ("Note_text", "followup")]

def visitW : VisitRecord :=
  { data := [("Visit_time", "3/14/2024"), ("Race", "Asian")], notes := [noteW] }

def prW : PatientRecord := { patient_id := "p1", visits := [("v1", visitW)] }

def dbW : PatientDatabase := { patients := [("p1", prW)] }

/-! ## Claim C9 -/

/-- **C9**: `add_visit` appends the supplied note if and only if the `notes`
argument is truthy; `None` or an empty mapping merges the fields but appends
nothing, leaving the visit's notes list unchanged. -/
theorem claim_C9_add_visit_note_truthy (pr : PatientRecord) (vid : String)
    (d : Dict String) (n : Option (Dict String)) :
    (dget (pr.add_visit vid d n).visits vid).map VisitRecord.notes =
      some ((((dget pr.visits vid).map VisitRecord.notes).getD []) ++
        (match n with
         | some nn => if nn.isEmpty then [] else [nn]
         | none => [])) := by
  rw [add_visit_dget_self]
  rfl

/-! ## Claim C5 -/

/-- **C5**: `add_notes_to_visit` on an absent visit returns `False` and leaves the
record unchanged (it never creates the visit); on an existing visit it returns
`True`, appends the note at the end so the note count grows by exactly one, and
every other visit (and the patient id) is unchanged. -/
theorem claim_C5_add_note (pr : PatientRecord) (vid : String) (note : Dict String) :
    (dget pr.visits vid = none → pr.add_notes_to_visit vid note = (false, pr)) ∧
    (∀ vr, dget pr.visits vid = some vr →
      (pr.add_notes_to_visit vid note).1 = true ∧
      dget (pr.add_notes_to_visit vid note).2.visits vid =
        some { vr with notes := vr.notes ++ [note] } ∧
      ((dget (pr.add_notes_to_visit vid note).2.visits vid).map
        (fun v => v.notes.length)) = some (vr.notes.length + 1) ∧
      (∀ vid', vid' ≠ vid →
        dget (pr.add_notes_to_visit vid note).2.visits vid' = dget pr.visits vid') ∧
      (pr.add_notes_to_visit vid note).2.patient_id = pr.patient_id) := by
  constructor
  · intro hv
    simp [PatientRecord.add_notes_to_visit, hv]
  · intro vr hv
    refine ⟨?_, ?_, ?_, ?_, ?_⟩
    · simp [PatientRecord.add_notes_to_visit, hv]
    · simp [PatientRecord.add_notes_to_visit, hv, dget_dmodify]
    · simp [PatientRecord.add_notes_to_visit, hv, dget_dmodify]
    · intro vid' hne
      simp [PatientRecord.add_notes_to_visit, hv, dget_dmodify, Ne.symm hne]
    · simp [PatientRecord.add_notes_to_visit, hv]

/-- Witness for C5 at the concrete sample record. -/
theorem claim_C5_add_note_witness :
    prW.add_notes_to_visit "v9" noteW2 = (false, prW) ∧
    (prW.add_notes_to_visit "v1" noteW2).1 = true ∧
    dget (prW.add_notes_to_visit "v1" noteW2).2.visits "v1" =
      some { visitW with notes := visitW.notes ++ [noteW2] } := by
  refine ⟨(claim_C5_add_note prW "v9" noteW2).1 (by decide), ?_, ?_⟩
  · exact ((claim_C5_add_note prW "v1" noteW2).2 visitW (by decide)).1
  · exact ((claim_C5_add_note prW "v1" noteW2).2 visitW (by decide)).2.1

/-! ## Claim C4 -/

/-- A sequence of `add_visit` calls against the same visit id. -/
def applyAddVisits (pr : PatientRecord) (vid : String)
    (calls : List (Dict String × Option (Dict String))) : PatientRecord :=
  calls.foldl (fun pr c => pr.add_visit vid c.1 c.2) pr

/-- Spec-side "last call wins" union of the supplied field maps. -/
def callsLookup (calls : List (Dict String)) (k : String) : Option String :=
  calls.foldl (fun acc c => (dget c k).orElse (fun _ => acc)) none

theorem applyAddVisits_dget (vid : String)
    (calls : List (Dict String × Option (Dict String))) :
    ∀ (pr : PatientRecord) (vr : VisitRecord),
      dget pr.visits vid = some vr →
      (∀ c ∈ calls, (dkeys c.1).Nodup) →
      ∃ vr', dget (applyAddVisits pr vid calls).visits vid = some vr' ∧
        ∀ k, dget vr'.data k =
          calls.foldl (fun acc c => (dget c.1 k).orElse (fun _ => acc)) (dget vr.data k) := by
  induction calls with
  | nil => exact fun pr vr hv _ => ⟨vr, hv, fun k => rfl⟩
  | cons c rest ih =>
    intro pr vr hv hnd
    have hself := add_visit_dget_self pr vid c.1 c.2
    rw [hv] at hself
    simp only [Option.map_some', Option.getD_some] at hself
    obtain ⟨vr', hget, hlook⟩ :=
      ih (pr.add_visit vid c.1 c.2) _ hself
        (fun c' hc' => hnd c' (List.mem_cons_of_mem c hc'))
    refine ⟨vr', by simpa [applyAddVisits] using hget, fun k => ?_⟩
    rw [hlook k]
    simp only [List.foldl_cons]
    rw [dget_dupdate _ _ _ (hnd c (List.mem_cons_self c rest))]

/-- **C4**: folding any nonempty sequence of `add_visit` calls on a previously
unseen visit id yields a visit whose field map is the last-call-wins union of all
supplied field maps (for pairwise-disjoint key sets this is exactly the union,
and no call ever deletes a key). -/
theorem claim_C4_add_visit_merge (pr : PatientRecord) (vid : String)
    (calls : List (Dict String × Option (Dict String)))
    (h0 : dget pr.visits vid = none)
    (hnodup : ∀ c ∈ calls, (dkeys c.1).Nodup)
    (hne : calls ≠ []) :
    ∃ vr, dget (applyAddVisits pr vid calls).visits vid = some vr ∧
      ∀ k, dget vr.data k = callsLookup (calls.map (·.1)) k := by
  obtain ⟨c, rest, rfl⟩ := List.exists_cons_of_ne_nil hne
  have hself := add_visit_dget_self pr vid c.1 c.2
  rw [h0] at hself
  simp only [Option.map_none', Option.getD_none] at hself
  obtain ⟨vr', hget, hlook⟩ :=
    applyAddVisits_dget vid rest (pr.add_visit vid c.1 c.2) _ hself
      (fun c' hc' => hnodup c' (List.mem_cons_of_mem c hc'))
  refine ⟨vr', by simpa [applyAddVisits] using hget, fun k => ?_⟩
  rw [hlook k, callsLookup]
  simp only [List.map_cons, List.foldl_cons]
  rw [dget_dupdate _ _ _ (hnodup c (List.mem_cons_self c rest))]
  simp only [List.foldl_map]
  simp [dget]

/-- Witness for C4: two calls on a fresh visit id, overlapping on `Race`. -/
theorem claim_C4_add_visit_merge_witness :
    ∃ vr, dget (applyAddVisits prW "v2"
        [([("Visit_time", "1/2/2024"), ("Race", "White")], none),
         ([("Race", "Black"), ("Age", "40")], some noteW2)]).visits "v2" = some vr ∧
      dget vr.data "Visit_time" = some "1/2/2024" ∧
      dget vr.data "Race" = some "Black" ∧
      dget vr.data "Age" = some "40" := by
  obtain ⟨vr, hget, hlook⟩ := claim_C4_add_visit_merge prW "v2"
    [([("Visit_time", "1/2/2024"), ("Race", "White")], none),
     ([("Race", "Black"), ("Age", "40")], some noteW2)]
    (by decide) (by decide) (by decide)
  refine ⟨vr, hget, ?_, ?_, ?_⟩
  · rw [hlook "Visit_time"]; decide
  · rw [hlook "Race"]; decide
  · rw [hlook "Age"]; decide

/-! ## Claim C8: append-only growth -/

/-- A visit only grows: the old notes list is a prefix of the new one and no
field key disappears. -/
def visitGrows (vr vr' : VisitRecord) : Prop :=
  (∃ t, vr'.notes = vr.notes ++ t) ∧
  ∀ k, (dget vr.data k).isSome → (dget vr'.data k).isSome

/-- Every visit present before is present after and only grows. -/
def recordGrows (pr pr' : PatientRecord) : Prop :=
  ∀ vid vr, dget pr.visits vid = some vr →
    ∃ vr', dget pr'.visits vid = some vr' ∧ visitGrows vr vr'

/-- Every patient present before is present after with all visits grown. -/
def dbGrows (db db' : PatientDatabase) : Prop :=
  ∀ pid pr, dget db.patients pid = some pr →
    ∃ pr', dget db'.patients pid = some pr' ∧ recordGrows pr pr'

theorem visitGrows_refl (vr : VisitRecord) : visitGrows vr vr :=
  ⟨⟨[], by simp⟩, fun _ h => h⟩

theorem visitGrows_trans {a b c : VisitRecord} (h₁ : visitGrows a b)
    (h₂ : visitGrows b c) : visitGrows a c := by
  obtain ⟨⟨t₁, ht₁⟩, hk₁⟩ := h₁
  obtain ⟨⟨t₂, ht₂⟩, hk₂⟩ := h₂
  exact ⟨⟨t₁ ++ t₂, by rw [ht₂, ht₁, List.append_assoc]⟩, fun k h => hk₂ k (hk₁ k h)⟩

theorem recordGrows_refl (pr : PatientRecord) : recordGrows pr pr :=
  fun _ vr h => ⟨vr, h, visitGrows_refl vr⟩

theorem recordGrows_trans {a b c : PatientRecord} (h₁ : recordGrows a b)
    (h₂ : recordGrows b c) : recordGrows a c := by
  intro vid vr h
  obtain ⟨vr₁, h₁', hg₁⟩ := h₁ vid vr h
  obtain ⟨vr₂, h₂', hg₂⟩ := h₂ vid vr₁ h₁'
  exact ⟨vr₂, h₂', visitGrows_trans hg₁ hg₂⟩

theorem dbGrows_refl (db : PatientDatabase) : dbGrows db db :=
  fun _ pr h => ⟨pr, h, recordGrows_refl pr⟩

theorem dbGrows_trans {a b c : PatientDatabase} (h₁ : dbGrows a b)
    (h₂ : dbGrows b c) : dbGrows a c := by
  intro pid pr h
  obtain ⟨pr₁, h₁', hg₁⟩ := h₁ pid pr h
  obtain ⟨pr₂, h₂', hg₂⟩ := h₂ pid pr₁ h₁'
  exact ⟨pr₂, h₂', recordGrows_trans hg₁ hg₂⟩

theorem dbGrows_foldl {β : Type} (step : PatientDatabase → β → PatientDatabase)
    (h : ∀ db x, dbGrows db (step db x)) (rows : List β) (db : PatientDatabase) :
    dbGrows db (rows.foldl step db) := by
  induction rows generalizing db with
  | nil => exact dbGrows_refl db
  | cons r rest ih => exact dbGrows_trans (h db r) (ih (step db r))

theorem recordGrows_add_visit (pr : PatientRecord) (vid : String) (d : Dict String)
    (n : Option (Dict String)) : recordGrows pr (pr.add_visit vid d n) := by
  intro vid0 vr0 h0
  by_cases hv : vid = vid0
  · subst hv
    have hs := add_visit_dget_self pr vid d n
    rw [h0] at hs
    simp only [Option.map_some', Option.getD_some] at hs
    refine ⟨_, hs, ⟨_, rfl⟩, fun k hk => ?_⟩
    rw [dget_dupdate_rev]
    cases hdk : dget d.reverse k <;> simp [Option.orElse, hk]
  · exact ⟨vr0, by rw [add_visit_dget_other pr vid d n vid0 hv]; exact h0,
      visitGrows_refl vr0⟩

theorem recordGrows_add_note (pr : PatientRecord) (vid : String)
    (note : Dict String) : recordGrows pr (pr.add_notes_to_visit vid note).2 := by
  intro vid0 vr0 h0
  cases hv : dget pr.visits vid with
  | none =>
    refine ⟨vr0, ?_, visitGrows_refl vr0⟩
    simp [PatientRecord.add_notes_to_visit, hv, h0]
  | some vr =>
    by_cases hvv : vid = vid0
    · subst hvv
      rw [h0] at hv
      injection hv with hv
      subst hv
      refine ⟨{ vr0 with notes := vr0.notes ++ [note] }, ?_, ⟨[note], rfl⟩, fun k hk => hk⟩
      simp [PatientRecord.add_notes_to_visit, h0, dget_dmodify]
    · refine ⟨vr0, ?_, visitGrows_refl vr0⟩
      simp [PatientRecord.add_notes_to_visit, hv, dget_dmodify, hvv, h0]

theorem dbGrows_load_data_row (header : List String) (db : PatientDatabase)
    (row : List String) : dbGrows db (load_data_row header db row) := by
  by_cases hpid : (dget (readerRow header row) "Patient_ID").getD "" = ""
  · intro pid0 pr0 h0
    exact ⟨pr0, by simp [load_data_row, hpid, h0], recordGrows_refl pr0⟩
  · by_cases hvid : (dget (readerRow header row) "Visit_ID").getD "" = ""
    · intro pid0 pr0 h0
      exact ⟨pr0, by simp [load_data_row, hpid, hvid, h0], recordGrows_refl pr0⟩
    · intro pid0 pr0 h0
      by_cases hp : (dget (readerRow header row) "Patient_ID").getD "" = pid0
      · have h0' : dget db.patients ((dget (readerRow header row) "Patient_ID").getD "") =
            some pr0 := by rw [hp]; exact h0
        have hpid0 : ¬ pid0 = "" := by rw [← hp]; exact hpid
        have hget : dget (load_data_row header db row).patients pid0 =
            some (pr0.add_visit ((dget (readerRow header row) "Visit_ID").getD "")
              ((readerRow header row).filter
                (fun p => p.1 ≠ "Patient_ID" && p.1 ≠ "Visit_ID")) none) := by
          simp [load_data_row, hpid, hvid, dget_dset, hp, hpid0, h0, h0']
        exact ⟨_, hget, recordGrows_add_visit pr0 _ _ none⟩
      · refine ⟨pr0, ?_, recordGrows_refl pr0⟩
        simp [load_data_row, hpid, hvid, dget_dset, hp, h0]

theorem dbGrows_load_data (db : PatientDatabase) (file : Option CsvFile) :
    dbGrows db (db.load_data file) := by
  cases file with
  | none => exact dbGrows_refl db
  | some f =>
    exact dbGrows_foldl (load_data_row f.header)
      (fun db row => dbGrows_load_data_row f.header db row) f.rows db

/-- The in-place effect of one notes-file row on the owning patient record:
append the note to the (possibly synthesized) visit. -/
def noteAppendVisit (pr : PatientRecord) (vid : String) (note : Dict String) :
    PatientRecord :=
  let visit := (dget pr.visits vid).getD { data := [], notes := [] }
  let visit' := { visit with notes := visit.notes ++ [note] }
  { pr with visits := dset pr.visits vid visit' }

theorem recordGrows_noteAppendVisit (pr : PatientRecord) (vid : String)
    (note : Dict String) : recordGrows pr (noteAppendVisit pr vid note) := by
  intro vid0 vr0 hv0
  by_cases hv : vid = vid0
  · subst hv
    refine ⟨{ data := vr0.data, notes := vr0.notes ++ [note] }, ?_, ⟨[note], rfl⟩,
      fun k hk => hk⟩
    simp [noteAppendVisit, dget_dset, hv0]
  · refine ⟨vr0, ?_, visitGrows_refl vr0⟩
    simp [noteAppendVisit, dget_dset, hv, hv0]

theorem dbGrows_load_notes_row (header : List String) (db : PatientDatabase)
    (row : List String) : dbGrows db (load_notes_row header db row) := by
  by_cases hpid : (dget (readerRow header row) "Patient_ID").getD "" = ""
  · intro pid0 pr0 h0
    exact ⟨pr0, by simp [load_notes_row, hpid, h0], recordGrows_refl pr0⟩
  · by_cases hvid : (dget (readerRow header row) "Visit_ID").getD "" = ""
    · intro pid0 pr0 h0
      exact ⟨pr0, by simp [load_notes_row, hpid, hvid, h0], recordGrows_refl pr0⟩
    · by_cases hnid : (dget (readerRow header row) "Note_ID").getD "" = ""
      · intro pid0 pr0 h0
        exact ⟨pr0, by simp [load_notes_row, hpid, hvid, hnid, h0], recordGrows_refl pr0⟩
      · intro pid0 pr0 h0
        by_cases hp : (dget (readerRow header row) "Patient_ID").getD "" = pid0
        · have h0' : dget db.patients ((dget (readerRow header row) "Patient_ID").getD "") =
              some pr0 := by rw [hp]; exact h0
          have hpid0 : ¬ pid0 = "" := by rw [← hp]; exact hpid
          have hget : dget (load_notes_row header db row).patients pid0 =
              some (noteAppendVisit pr0 ((dget (readerRow header row) "Visit_ID").getD "")
                [("Note_ID", (dget (readerRow header row) "Note_ID").getD ""),
                 ("Note_text", (dget (readerRow header row) "Note_text").getD "")]) := by
            simp [load_notes_row, noteAppendVisit, hpid, hvid, hnid, dget_dset, hp,
              hpid0, h0, h0']
          exact ⟨_, hget, recordGrows_noteAppendVisit pr0 _ _⟩
        · refine ⟨pr0, ?_, recordGrows_refl pr0⟩
          simp [load_notes_row, hpid, hvid, hnid, dget_dset, hp, h0]

theorem dbGrows_load_notes_data (db : PatientDatabase) (file : Option CsvFile) :
    dbGrows db (db.load_notes_data file) := by
  cases file with
  | none => exact dbGrows_refl db
  | some f =>
    exact dbGrows_foldl (load_notes_row f.header)
      (fun db row => dbGrows_load_notes_row f.header db row) f.rows db

/-- **C8**: every store operation only grows its records — for every (patient,
visit) pair present before, the pair is still present after, the prior notes
list is a prefix of the new one, and every prior field key is still present. -/
theorem claim_C8_append_only :
    (∀ (pr : PatientRecord) (vid : String) (d : Dict String)
        (n : Option (Dict String)), recordGrows pr (pr.add_visit vid d n)) ∧
    (∀ (pr : PatientRecord) (vid : String) (note : Dict String),
      recordGrows pr (pr.add_notes_to_visit vid note).2) ∧
    (∀ (db : PatientDatabase) (file : Option CsvFile), dbGrows db (db.load_data file)) ∧
    (∀ (db : PatientDatabase) (file : Option CsvFile), dbGrows db (db.load_notes_data file)) :=
  ⟨recordGrows_add_visit, recordGrows_add_note, dbGrows_load_data, dbGrows_load_notes_data⟩

/-- Witness for C8: loading a concrete notes file over the sample store keeps the
old note as a prefix and the old field key present. -/
theorem claim_C8_append_only_witness :
    ∃ pr' vr' t, dget (dbW.load_notes_data
        (some ⟨["Patient_ID", "Visit_ID", "Note_ID", "Note_text"],
               [["p1", "v1", "n9", "extra"]]⟩)).patients "p1" = some pr' ∧
      dget pr'.visits "v1" = some vr' ∧
      vr'.notes = visitW.notes ++ t ∧
      (dget vr'.data "Visit_time").isSome := by
  obtain ⟨pr', hp, hrec⟩ := claim_C8_append_only.2.2.2 dbW
    (some ⟨["Patient_ID", "Visit_ID", "Note_ID", "Note_text"],
           [["p1", "v1", "n9", "extra"]]⟩) "p1" prW (by decide)
  obtain ⟨vr', hv, ⟨t, ht⟩, hk⟩ := hrec "v1" visitW (by decide)
  exact ⟨pr', vr', t, hp, hv, ht, hk "Visit_time" (by decide)⟩

/-! ## Claim C1: `count_visits_in_day` -/

/-- The date a stored visit contributes to the count: parse the stripped
`Visit_time` field (missing field behaves as the empty string). -/
def visitDate (vr : VisitRecord) : Option Date :=
  strptimeMDY (pyStrip ((dget vr.data "Visit_time").getD ""))

/-- All visits of all patients, in iteration order. -/
def allVisits (db : PatientDatabase) : List VisitRecord :=
  db.patients.flatMap (fun p => p.2.visits.map (·.2))

theorem count_visits_fold_inner (target : Date) (visits : List (String × VisitRecord))
    (n : Nat) :
    visits.foldl (fun total q =>
      match strptimeMDY (pyStrip ((dget q.2.data "Visit_time").getD "")) with
      | none => total
      | some visit_date => if visit_date = target then total + 1 else total) n =
    n + (visits.map (·.2)).countP (fun vr => decide (visitDate vr = some target)) := by
  induction visits generalizing n with
  | nil => simp
  | cons q rest ih =>
    rw [List.foldl_cons, ih]
    have hstep : (match strptimeMDY (pyStrip ((dget q.2.data "Visit_time").getD "")) with
        | none => n
        | some visit_date => if visit_date = target then n + 1 else n) =
        if visitDate q.2 = some target then n + 1 else n := by
      unfold visitDate
      cases hq : strptimeMDY (pyStrip ((dget q.2.data "Visit_time").getD "")) with
      | none => simp
      | some d => by_cases hd : d = target <;> simp [hd]
    rw [hstep]
    rw [List.map_cons, List.countP_cons]
    by_cases h : visitDate q.2 = some target
    · simp [h]
      omega
    · simp [h]

theorem count_visits_fold (target : Date) (l : List (String × PatientRecord)) (n : Nat) :
    l.foldl (fun total p =>
      p.2.visits.foldl (fun total q =>
        match strptimeMDY (pyStrip ((dget q.2.data "Visit_time").getD "")) with
        | none => total
        | some visit_date => if visit_date = target then total + 1 else total) total) n =
    n + (l.flatMap (fun p => p.2.visits.map (·.2))).countP
      (fun vr => decide (visitDate vr = some target)) := by
  induction l generalizing n with
  | nil => simp
  | cons p rest ih =>
    rw [List.foldl_cons, count_visits_fold_inner target p.2.visits n, ih]
    rw [List.flatMap_cons, List.countP_append]
    omega

/-- **C1**: `count_visits_in_day` returns `None` exactly when the input string
does not parse in the single accepted `%m/%d/%Y` format; otherwise it returns
the exact number of visits whose own `Visit_time` parses to the same date,
silently skipping visits with a missing or unparsable date. -/
theorem claim_C1_count_visits (db : PatientDatabase) (s : String) :
    (db.count_visits_in_day s = none ↔ strptimeMDY (pyStrip s) = none) ∧
    (∀ target, strptimeMDY (pyStrip s) = some target →
      db.count_visits_in_day s =
        some ((allVisits db).countP (fun vr => decide (visitDate vr = some target)))) := by
  cases hp : strptimeMDY (pyStrip s) with
  | none =>
    constructor
    · simp [PatientDatabase.count_visits_in_day, hp]
    · intro target htgt
      exact absurd htgt (by simp)
  | some t =>
    constructor
    · simp [PatientDatabase.count_visits_in_day, hp]
    · intro target htgt
      injection htgt with htgt
      subst htgt
      simp only [PatientDatabase.count_visits_in_day, hp]
      rw [count_visits_fold t db.patients 0]
      simp [allVisits]

/-- Witness for C1 on the sample store: an invalid calendar date yields the
sentinel, a valid unmatched date yields 0, and the stored date counts once. -/
theorem claim_C1_count_visits_witness :
    dbW.count_visits_in_day "13/40/2024" = none ∧
    dbW.count_visits_in_day "1/1/2030" = some 0 ∧
    dbW.count_visits_in_day "3/14/2024" = some 1 := by
  refine ⟨?_, ?_, ?_⟩
  · exact (claim_C1_count_visits dbW "13/40/2024").1.2 (by decide)
  · rw [(claim_C1_count_visits dbW "1/1/2030").2 ⟨2030, 1, 1⟩ (by decide)]
    decide
  · rw [(claim_C1_count_visits dbW "3/14/2024").2 ⟨2024, 3, 14⟩ (by decide)]
    decide

/-! ## Claim C6: `retrieve_patient_info` -/

/-- Spec-side value list for one patient: per visit, the field hit first, then
the note hits in note order. -/
def specFieldValues (record : PatientRecord) (key : String) : List String :=
  record.visits.flatMap (fun q =>
    (match dget q.2.data key with
     | some v => [v]
     | none => []) ++
    q.2.notes.filterMap (fun note => dget note key))

theorem retrieve_fold_notes (key : String) (notes : List (Dict String))
    (acc : List String) :
    notes.foldl (fun result note =>
      match dget note key with
      | some v => result ++ [v]
      | none => result) acc =
    acc ++ notes.filterMap (fun note => dget note key) := by
  induction notes generalizing acc with
  | nil => simp
  | cons note rest ih =>
    rw [List.foldl_cons, ih]
    cases h : dget note key with
    | none => simp [h]
    | some v => simp [h]

theorem retrieve_fold (key : String) (visits : List (String × VisitRecord))
    (acc : List String) :
    visits.foldl (fun result p =>
      p.2.notes.foldl (fun result note =>
        match dget note key with
        | some v => result ++ [v]
        | none => result)
        (match dget p.2.data key with
         | some v => result ++ [v]
         | none => result)) acc =
    acc ++ visits.flatMap (fun q =>
      (match dget q.2.data key with
       | some v => [v]
       | none => []) ++
      q.2.notes.filterMap (fun note => dget note key)) := by
  induction visits generalizing acc with
  | nil => simp
  | cons p rest ih =>
    rw [List.foldl_cons, ih, retrieve_fold_notes, List.flatMap_cons]
    cases h : dget p.2.data key with
    | none => simp [h]
    | some v => simp [h]

/-- **C6**: `retrieve_patient_info` returns `None` iff the patient does not
exist; for an existing patient it returns the (possibly empty) list collecting,
visit by visit in map-iteration order, the visit's field value when present and
then each note's value, in note order.  The query is pure: it returns a value
and leaves the database untouched. -/
theorem claim_C6_retrieve (db : PatientDatabase) (pid key : String) :
    (db.retrieve_patient_info pid key = none ↔ db.get_patient pid = none) ∧
    (∀ record, db.get_patient pid = some record →
      db.retrieve_patient_info pid key = some (specFieldValues record key)) := by
  cases hg : db.get_patient pid with
  | none =>
    constructor
    · simp [PatientDatabase.retrieve_patient_info, hg]
    · intro record hrec
      exact absurd hrec (by simp)
  | some record =>
    constructor
    · simp [PatientDatabase.retrieve_patient_info, hg]
    · intro record' hrec
      injection hrec with hrec
      subst hrec
      simp only [PatientDatabase.retrieve_patient_info, hg]
      rw [retrieve_fold key record.visits []]
      simp [specFieldValues]

/-- Witness for C6: absent patient gives `None`; existing patient gives field
and note hits, and an unmatched key gives the empty list (not `None`). -/
theorem claim_C6_retrieve_witness :
    dbW.retrieve_patient_info "p2" "Race" = none ∧
    dbW.retrieve_patient_info "p1" "Race" = some ["Asian"] ∧
    dbW.retrieve_patient_info "p1" "Note_text" = some ["hello"] ∧
    dbW.retrieve_patient_info "p1" "Zip_code" = some [] := by
  refine ⟨?_, ?_, ?_, ?_⟩
  · exact (claim_C6_retrieve dbW "p2" "Race").1.2 (by decide)
  · rw [(claim_C6_retrieve dbW "p1" "Race").2 prW (by decide)]; decide
  · rw [(claim_C6_retrieve dbW "p1" "Note_text").2 prW (by decide)]; decide
  · rw [(claim_C6_retrieve dbW "p1" "Zip_code").2 prW (by decide)]; decide

/-! ## Claim C10: credentials -/

theorem dget_mem {α : Type} (m : Dict α) (k : String) (v : α)
    (h : dget m k = some v) : (k, v) ∈ m := by
  induction m with
  | nil => simp [dget] at h
  | cons p rest ih =>
    obtain ⟨a, b⟩ := p
    by_cases hak : a = k
    · subst hak
      simp [dget] at h
      simp [h]
    · simp [dget, hak] at h
      simp [ih h]

/-- The (normalized username, entry) pair a credentials row contributes, when it
is kept. -/
def cred_row_kept (header : List String) (row : List String) :
    Option (String × Credential) :=
  if pyLower (pyStrip ((dget (readerRow header row) "username").getD "")) ≠ "" &&
     pyStrip ((dget (readerRow header row) "password").getD "") ≠ "" &&
     pyStrip ((dget (readerRow header row) "role").getD "") ≠ "" then
    some (pyLower (pyStrip ((dget (readerRow header row) "username").getD "")),
      { password := pyStrip ((dget (readerRow header row) "password").getD ""),
        role := pyStrip ((dget (readerRow header row) "role").getD "") })
  else none

/-- The credential rows the loader keeps, in file order. -/
def keptCredRows (header : List String) (rows : List (List String)) :
    List (String × Credential) :=
  rows.filterMap (cred_row_kept header)

theorem cred_row_step_eq (header : List String) (creds : Dict Credential)
    (row : List String) :
    cred_row_step header creds row =
      match cred_row_kept header row with
      | some p => dset creds p.1 p.2
      | none => creds := by
  unfold cred_row_step cred_row_kept
  by_cases hc : (pyLower (pyStrip ((dget (readerRow header row) "username").getD "")) ≠ "" &&
      pyStrip ((dget (readerRow header row) "password").getD "") ≠ "" &&
      pyStrip ((dget (readerRow header row) "role").getD "") ≠ "") = true
  · simp only [hc, if_true]
  · simp only [Bool.not_eq_true] at hc
    simp only [hc, Bool.false_eq_true, if_false]

theorem keptCredRows_nonempty (header : List String) (rows : List (List String)) :
    ∀ u c, (u, c) ∈ keptCredRows header rows →
      u ≠ "" ∧ c.password ≠ "" ∧ c.role ≠ "" := by
  intro u c hm
  rw [keptCredRows, List.mem_filterMap] at hm
  obtain ⟨row, _, hrow⟩ := hm
  unfold cred_row_kept at hrow
  split at hrow
  · rename_i hcond
    injection hrow with hrow
    cases hrow
    simp only [Bool.and_eq_true, decide_eq_true_eq, ne_eq] at hcond
    exact ⟨hcond.1.1, hcond.1.2, hcond.2⟩
  · exact absurd hrow (by simp)

theorem credRows_foldl (header : List String) (rows : List (List String))
    (creds0 : Dict Credential) :
    rows.foldl (cred_row_step header) creds0 =
      (keptCredRows header rows).foldl (fun c p => dset c p.1 p.2) creds0 := by
  induction rows generalizing creds0 with
  | nil => rfl
  | cons row rest ih =>
    rw [List.foldl_cons, keptCredRows, List.filterMap_cons, cred_row_step_eq]
    cases hk : cred_row_kept header row with
    | none => exact ih creds0
    | some p => rw [List.foldl_cons]; exact ih (dset creds0 p.1 p.2)

theorem loadCredentials_eq_fromItems (header : List String) (rows : List (List String))
    (creds : Dict Credential) (h : loadCredentials header rows = some creds) :
    creds = fromItems (keptCredRows header rows) := by
  unfold loadCredentials at h
  split at h
  · injection h with h
    rw [← h, credRows_foldl]
    rfl
  · exact absurd h (by simp)

/-- **C10**: the credential loader keeps only rows whose stripped username,
password and role are all nonempty, so every in-memory entry has nonempty
username, password and role, lookups resolve to the last kept row for the
normalized username, and `authenticate` can only return the (nonempty) role of
an entry whose stored password equals the supplied one. -/
theorem claim_C10_credentials (header : List String) (rows : List (List String))
    (creds : Dict Credential) (hload : loadCredentials header rows = some creds) :
    (∀ u c, dget creds u = some c → u ≠ "" ∧ c.password ≠ "" ∧ c.role ≠ "") ∧
    (∀ u, dget creds u = dget (keptCredRows header rows).reverse u) ∧
    (∀ u p r, authenticate creds u p = some r →
      ∃ c, dget creds (pyLower (pyStrip u)) = some c ∧
        c.password = p ∧ c.role = r ∧ c.password ≠ "" ∧ c.role ≠ "") := by
  have hc := loadCredentials_eq_fromItems header rows creds hload
  have hlast : ∀ u, dget creds u = dget (keptCredRows header rows).reverse u := by
    intro u
    rw [hc, fromItems_get]
  have hne : ∀ u c, dget creds u = some c → u ≠ "" ∧ c.password ≠ "" ∧ c.role ≠ "" := by
    intro u c hg
    rw [hlast] at hg
    have hmem := dget_mem _ _ _ hg
    exact keptCredRows_nonempty header rows u c (List.mem_reverse.1 hmem)
  refine ⟨hne, hlast, ?_⟩
  intro u p r hauth
  unfold authenticate at hauth
  cases hg : dget creds (pyLower (pyStrip u)) with
  | none => rw [hg] at hauth; exact absurd hauth (by simp)
  | some cred =>
    rw [hg] at hauth
    have hauth' : (if cred.password = p then some cred.role else none) = some r := hauth
    split at hauth'
    · rename_i hpw
      injection hauth' with hauth'
      obtain ⟨_, hpne, hrne⟩ := hne _ _ hg
      exact ⟨cred, rfl, hpw, hauth', hpne, hrne⟩
    · exact absurd hauth' (by simp)

/-- Concrete credentials table: a duplicate username (last row wins after
normalization) and a row with a blank password (skipped). -/
def rowsW : List (List String) :=
  [["Alice ", "pw1", "admin"], ["bob", "", "nurse"], ["ALICE", "pw2", "manager"]]

/-- The in-memory table the loader builds from `rowsW`. -/
def credsW : Dict Credential := [("alice", { password := "pw2", role := "manager" })]

/-- Witness for C10 at the concrete table: entries are nonempty, the duplicate
username resolves to the last kept row, the blank-password user is absent, and
authentication returns the last row's role. -/
theorem claim_C10_credentials_witness :
    ("alice" ≠ "" ∧ (Credential.mk "pw2" "manager").password ≠ "" ∧
      (Credential.mk "pw2" "manager").role ≠ "") ∧
    dget credsW "alice" =
      dget (keptCredRows ["username", "password", "role"] rowsW).reverse "alice" ∧
    dget credsW "bob" = none ∧
    (∃ c, dget credsW (pyLower (pyStrip "ALICE ")) = some c ∧
      c.password = "pw2" ∧ c.role = "manager" ∧ c.password ≠ "" ∧ c.role ≠ "") := by
  have h := claim_C10_credentials ["username", "password", "role"] rowsW credsW (by decide)
  exact ⟨h.1 "alice" (Credential.mk "pw2" "manager") (by decide), h.2.1 "alice",
    by decide, h.2.2 "ALICE " "pw2" "manager" (by decide)⟩

/-! ## Claim C7: the two date-parsing routines -/

theorem digit_not_pyspace (c : Char) (h : c.isDigit = true) : isPySpace c = false := by
  have h1 : c ≠ ' ' := fun hc => absurd (hc ▸ h) (by decide)
  have h2 : c ≠ '\t' := fun hc => absurd (hc ▸ h) (by decide)
  have h3 : c ≠ '\n' := fun hc => absurd (hc ▸ h) (by decide)
  have h4 : c ≠ '\x0d' := fun hc => absurd (hc ▸ h) (by decide)
  have h5 : c ≠ '\x0b' := fun hc => absurd (hc ▸ h) (by decide)
  have h6 : c ≠ '\x0c' := fun hc => absurd (hc ▸ h) (by decide)
  simp [isPySpace, h1, h2, h3, h4, h5, h6]

theorem dropWhile_eq_self_of_false {α : Type} (p : α → Bool) (l : List α)
    (h : ∀ c ∈ l, p c = false) : l.dropWhile p = l := by
  cases l with
  | nil => rfl
  | cons c rest => simp [List.dropWhile_cons, h c (by simp)]

theorem stripChars_of_no_space (l : List Char) (h : ∀ c ∈ l, isPySpace c = false) :
    stripChars l = l := by
  unfold stripChars
  rw [dropWhile_eq_self_of_false _ _ h]
  rw [dropWhile_eq_self_of_false _ _ (fun c hc => h c (List.mem_reverse.1 hc))]
  exact List.reverse_reverse l

theorem digitsTail_of_digits (l : List Char) (h : l.all Char.isDigit = true) :
    digitsTail l = true := by
  induction l with
  | nil => rfl
  | cons c rest ih =>
    rw [List.all_cons, Bool.and_eq_true] at h
    have hc : c ≠ '_' := fun hu => absurd (hu ▸ h.1) (by decide)
    simp [digitsTail, hc, h.1, ih h.2]

theorem pyInt_digits (l : List Char) (h1 : l.all Char.isDigit = true) (h2 : l ≠ []) :
    pyInt l = some (digitsToNat l) := by
  have hall := List.all_eq_true.1 h1
  have hstrip : stripChars l = l :=
    stripChars_of_no_space l (fun c hc => digit_not_pyspace c (hall c hc))
  obtain ⟨c, rest, rfl⟩ := List.exists_cons_of_ne_nil h2
  have hc : c.isDigit = true := hall c (by simp)
  have hplus : c ≠ '+' := fun hp => absurd (hp ▸ hc) (by decide)
  have hminus : c ≠ '-' := fun hp => absurd (hp ▸ hc) (by decide)
  have hfilter : (c :: rest).filter (fun x => !decide (x = '_')) = c :: rest :=
    List.filter_eq_self.2 (fun a ha => by
      have had : a.isDigit = true := hall a ha
      simp only [Bool.not_eq_true', decide_eq_false_iff_not]
      exact fun hu => absurd (hu ▸ had) (by decide))
  have hpart : digitsPart (c :: rest) = true := by
    simp only [digitsPart, Bool.and_eq_true]
    refine ⟨hc, digitsTail_of_digits rest ?_⟩
    rw [List.all_cons, Bool.and_eq_true] at h1
    exact h1.2
  unfold pyInt
  rw [hstrip]
  simp [hplus, hminus, hpart, hfilter]

/-- C7 counterexample: on `"1/ 1/2024"` the note-viewing parse (split + `int`,
which tolerates inner whitespace) succeeds while the counting parse
(`strptime` with format `%m/%d/%Y`) fails, so the two routines do not agree on
every stored `Visit_time` string. -/
theorem claim_C7_parse_divergence_cex :
    viewNotesParseDate "1/ 1/2024" = some ⟨2024, 1, 1⟩ ∧
    strptimeMDY "1/ 1/2024" = none := by
  constructor
  · decide
  · decide

/-- **C7 (amended)**: the agreement is one-directional — whenever the counting
path's `strptime` parse succeeds on a stored `Visit_time`, the note-viewing
split-and-`int` parse also succeeds and yields the same calendar date; the
converse fails (the viewing parse is strictly more tolerant). -/
theorem claim_C7_parse_agreement_amended (s : String) (d : Date)
    (h : strptimeMDY s = some d) : viewNotesParseDate s = some d := by
  unfold strptimeMDY at h
  split at h
  · rename_i ms ds ys heq
    split at h
    · rename_i hcond
      simp only [Bool.and_eq_true, decide_eq_true_eq] at hcond
      obtain ⟨⟨⟨⟨hmd, hm1⟩, hm2⟩, ⟨⟨hdd, hd1⟩, hd2⟩⟩, hyd, hy4⟩ := hcond
      have hmne : ms ≠ [] := by
        intro hnil; rw [hnil] at hm1; exact absurd hm1 (by decide)
      have hdne : ds ≠ [] := by
        intro hnil; rw [hnil] at hd1; exact absurd hd1 (by decide)
      have hyne : ys ≠ [] := by
        intro hnil
        rw [hnil] at hy4
        exact absurd hy4 (by decide)
      unfold viewNotesParseDate
      rw [heq]
      show (match pyInt ms, pyInt ds, pyInt ys with
        | some m, some dd, some y => mkDate y m dd
        | _, _, _ => none) = some d
      rw [pyInt_digits ms hmd hmne, pyInt_digits ds hdd hdne, pyInt_digits ys hyd hyne]
      exact h
    · exact absurd h (by simp)
  · exact absurd h (by simp)

/-- Witness for the amended C7 at a concrete date string. -/
theorem claim_C7_parse_agreement_amended_witness :
    strptimeMDY "3/14/2024" = some ⟨2024, 3, 14⟩ ∧
    viewNotesParseDate "3/14/2024" = some ⟨2024, 3, 14⟩ := by
  refine ⟨by decide, claim_C7_parse_agreement_amended "3/14/2024" ⟨2024, 3, 14⟩ (by decide)⟩

/-! ## Claim C2: `save_visit_data` -/

theorem foldl_append_flatMap {α β : Type} (f : α → List β) (l : List α)
    (init : List β) :
    l.foldl (fun acc x => acc ++ f x) init = init ++ l.flatMap f := by
  induction l generalizing init with
  | nil => simp
  | cons x rest ih => rw [List.foldl_cons, ih, List.flatMap_cons, List.append_assoc]

theorem get_visit_data_rows_eq (db : PatientDatabase) :
    db.get_visit_data_rows = db.patients.flatMap (fun p =>
      p.2.visits.map (fun q =>
        dupdate [("Patient_ID", p.2.patient_id), ("Visit_ID", q.1)] q.2.data)) := by
  unfold PatientDatabase.get_visit_data_rows
  rw [foldl_append_flatMap]
  rfl

theorem mapM_writeRow (fieldnames : List String) (rows : List (Dict String)) :
    rows.mapM (writeRow fieldnames) =
      if rows.all (fun r => r.all (fun p => fieldnames.contains p.1))
      then some (rows.map (fun r => fieldnames.map (fun f => (dget r f).getD "")))
      else none := by
  induction rows with
  | nil => rfl
  | cons r rest ih =>
    rw [List.mapM_cons, ih]
    by_cases hr : r.all (fun p => fieldnames.contains p.1)
    · by_cases hrest : rest.all (fun r => r.all (fun p => fieldnames.contains p.1))
      · simp only [writeRow, List.all_cons, hr, hrest, if_pos, Bool.true_and, if_true]
        rfl
      · simp only [writeRow, List.all_cons, hr, hrest, Bool.true_and]
        rfl
    · simp only [writeRow, List.all_cons, hr, Bool.false_and]
      rfl

/-- C2 counterexample: the claim says the save silently drops fields outside
`column_order` and completes, but `csv.DictWriter` (default
`extrasaction='raise'`) raises `ValueError` — here the sample store holds a
`Race` field not listed in the column order and the save fails. -/
theorem claim_C2_save_drops_cex :
    dbW.save_visit_data ["Patient_ID", "Visit_ID", "Visit_time"] = none := by decide

/-- **C2 (amended)**: `save_visit_data` truncates and rewrites header plus one
row per (patient, visit) in `column_order` when every row key (the two id
columns and every field name) lies inside `column_order` (missing columns are
filled with `""`); but as soon as any visit carries a field name outside
`column_order` the save raises `ValueError` instead of silently dropping it. -/
theorem claim_C2_save_visit_data_amended (db : PatientDatabase)
    (fieldnames : List String) :
    (db.get_visit_data_rows.all (fun r => r.all (fun p => fieldnames.contains p.1)) = true →
      db.save_visit_data fieldnames = some ⟨fieldnames,
        db.get_visit_data_rows.map (fun r => fieldnames.map (fun f => (dget r f).getD ""))⟩) ∧
    (db.get_visit_data_rows.all (fun r => r.all (fun p => fieldnames.contains p.1)) = false →
      db.save_visit_data fieldnames = none) ∧
    db.get_visit_data_rows.length =
      (db.patients.map (fun p => p.2.visits.length)).sum := by
  refine ⟨?_, ?_, ?_⟩
  · intro hall
    unfold PatientDatabase.save_visit_data
    rw [mapM_writeRow, if_pos hall]
    rfl
  · intro hall
    unfold PatientDatabase.save_visit_data
    rw [mapM_writeRow, if_neg (by rw [hall]; exact Bool.false_ne_true)]
    rfl
  · rw [get_visit_data_rows_eq, List.length_flatMap]
    simp [Function.comp_def, List.length_map]

/-- Witness for the amended C2: with the full column list the sample store is
written as header plus one padded row; dropping `Race` from the columns makes
the save fail. -/
theorem claim_C2_save_visit_data_amended_witness :
    dbW.save_visit_data ["Patient_ID", "Visit_ID", "Visit_time", "Race", "Age"] =
      some ⟨["Patient_ID", "Visit_ID", "Visit_time", "Race", "Age"],
        [["p1", "v1", "3/14/2024", "Asian", ""]]⟩ ∧
    dbW.save_visit_data ["Patient_ID", "Visit_ID"] = none := by
  constructor
  · rw [(claim_C2_save_visit_data_amended dbW
      ["Patient_ID", "Visit_ID", "Visit_time", "Race", "Age"]).1 (by decide)]
    decide
  · exact (claim_C2_save_visit_data_amended dbW ["Patient_ID", "Visit_ID"]).2.1 (by decide)

/-! ## Claim C3: auxiliary dictionary lemmas -/

theorem zip_left_full {α β : Type} (l1 : List α) (l2 l3 : List β)
    (h : l1.length = l2.length) : l1.zip (l2 ++ l3) = l1.zip l2 := by
  induction l1 generalizing l2 with
  | nil => simp
  | cons a rest ih =>
    cases l2 with
    | nil => simp at h
    | cons b l2' =>
      simp only [List.length_cons, Nat.succ_inj] at h
      simp [List.zip_cons_cons, ih l2' h]

theorem dget_graph {α : Type} (l : List String) (g : String → α) (k : String)
    (hnd : l.Nodup) :
    dget (l.map (fun f => (f, g f))) k = if k ∈ l then some (g k) else none := by
  induction l with
  | nil => simp [dget]
  | cons a rest ih =>
    rw [List.nodup_cons] at hnd
    by_cases hak : a = k
    · subst hak
      simp [dget, hnd]
    · have hka : ¬ k = a := fun h => hak h.symm
      simp only [List.map_cons, dget, if_neg hak, ih hnd.2, List.mem_cons]
      by_cases hk : k ∈ rest
      · simp [hk, hka]
      · simp [hk, hka]

theorem dget_map_keyed {α β : Type} (l : List (String × α)) (F : String × α → β)
    (k : String) :
    dget (l.map (fun p => (p.1, F p))) k = (dget l k).map (fun v => F (k, v)) := by
  induction l with
  | nil => simp [dget]
  | cons p rest ih =>
    by_cases hk : p.1 = k
    · subst hk
      simp [dget, ih]
    · simp [dget, hk, ih]

theorem dget_filter_nodup {α : Type} (l : List (String × α)) (pred : String × α → Bool)
    (k : String) (hnd : (l.map (·.1)).Nodup) :
    dget (l.filter pred) k =
      match dget l k with
      | some v => if pred (k, v) then some v else none
      | none => none := by
  induction l with
  | nil => simp [dget]
  | cons p rest ih =>
    rw [List.map_cons, List.nodup_cons] at hnd
    obtain ⟨a, b⟩ := p
    by_cases hak : a = k
    · subst hak
      by_cases hp : pred (a, b)
      · simp [List.filter_cons, hp, dget]
      · have hrest : dget rest a = none :=
          (dget_eq_none_iff rest a).2 (by simpa [dkeys] using hnd.1)
        simp [List.filter_cons, hp, dget, ih hnd.2, hrest]
    · by_cases hp : pred (a, b)
      · simp [List.filter_cons, hp, dget, hak, ih hnd.2]
      · simp [List.filter_cons, hp, dget, hak, ih hnd.2]

theorem dset_replace {α : Type} (l1 : Dict α) (k : String) (v v' : α)
    (l2 : Dict α) (h : dget l1 k = none) :
    dset (l1 ++ (k, v) :: l2) k v' = l1 ++ (k, v') :: l2 := by
  induction l1 with
  | nil => simp [dset]
  | cons p rest ih =>
    obtain ⟨a, b⟩ := p
    by_cases hak : a = k
    · simp [dget, hak] at h
    · simp [dget, hak] at h
      simp [dset, hak, ih h]

theorem dmodify_append_absent {α : Type} (l : Dict α) (k : String) (x : α)
    (f : α → α) (h : dget l k = none) :
    dmodify (l ++ [(k, x)]) k f = l ++ [(k, f x)] := by
  induction l with
  | nil => simp [dmodify]
  | cons p rest ih =>
    obtain ⟨a, b⟩ := p
    by_cases hak : a = k
    · simp [dget, hak] at h
    · simp [dget, hak] at h
      simp [dmodify, hak, ih h]

theorem dkeys_dupdate_mem {α : Type} (m other : Dict α) (k : String)
    (h : k ∈ dkeys (dupdate m other)) : k ∈ dkeys m ∨ k ∈ dkeys other := by
  by_cases hm : k ∈ dkeys m
  · exact Or.inl hm
  · right
    have hne : dget (dupdate m other) k ≠ none := by
      rw [ne_eq, dget_eq_none_iff]
      exact fun hh => hh h
    rw [dget_dupdate_rev] at hne
    cases hr : dget other.reverse k with
    | none =>
      rw [hr] at hne
      exact absurd ((dget_eq_none_iff m k).2 hm) (by simpa [Option.orElse] using hne)
    | some v =>
      have hmem := dget_mem _ _ _ hr
      have hks : k ∈ dkeys other.reverse := List.mem_map.2 ⟨(k, v), hmem, rfl⟩
      simpa [dkeys, List.map_reverse, List.mem_reverse] using hks

/-! ## Claim C3: well-formedness hypotheses and saved-file shapes -/

/-- The non-id columns of the save schema, in header order. -/
def extrasOf (colOrder : List String) : List String :=
  colOrder.filter (fun c => c ≠ "Patient_ID" && c ≠ "Visit_ID")

/-- A note in the canonical `{Note_ID, Note_text}` shape with a truthy id —
exactly what `load_notes_data` produces and `save_visit_notes` can rewrite. -/
def goodNote (note : Dict String) : Prop :=
  (dget note "Note_ID").getD "" ≠ "" ∧
  note = [("Note_ID", (dget note "Note_ID").getD ""),
          ("Note_text", (dget note "Note_text").getD "")]

/-- A visit whose id is truthy, whose field keys are exactly the non-id columns
of the save schema, and whose notes are canonical. -/
def goodVisit (extras : List String) (q : String × VisitRecord) : Prop :=
  q.1 ≠ "" ∧ (q.2.data.map (·.1)).Perm extras ∧ ∀ note ∈ q.2.notes, goodNote note

/-- A patient whose key is truthy and consistent with the embedded id, with
distinct visit ids and good visits. -/
def goodPatient (extras : List String) (p : String × PatientRecord) : Prop :=
  p.1 ≠ "" ∧ p.2.patient_id = p.1 ∧ (p.2.visits.map (·.1)).Nodup ∧
  ∀ q ∈ p.2.visits, goodVisit extras q

/-- The round-trip hypotheses: a duplicate-free save schema containing the two
id columns, and a store of good patients with distinct ids. -/
def goodStore (db : PatientDatabase) (colOrder : List String) : Prop :=
  colOrder.Nodup ∧ "Patient_ID" ∈ colOrder ∧ "Visit_ID" ∈ colOrder ∧
  (db.patients.map (·.1)).Nodup ∧
  ∀ p ∈ db.patients, goodPatient (extrasOf colOrder) p

instance (note : Dict String) : Decidable (goodNote note) := by
  unfold goodNote; infer_instance

instance (extras : List String) (q : String × VisitRecord) :
    Decidable (goodVisit extras q) := by
  unfold goodVisit; infer_instance

instance (extras : List String) (p : String × PatientRecord) :
    Decidable (goodPatient extras p) := by
  unfold goodPatient; infer_instance

instance (db : PatientDatabase) (colOrder : List String) :
    Decidable (goodStore db colOrder) := by
  unfold goodStore; infer_instance

theorem mem_extrasOf (colOrder : List String) (c : String) :
    c ∈ extrasOf colOrder ↔
      c ∈ colOrder ∧ c ≠ "Patient_ID" ∧ c ≠ "Visit_ID" := by
  simp [extrasOf, List.mem_filter]

theorem extrasOf_nodup (colOrder : List String) (h : colOrder.Nodup) :
    (extrasOf colOrder).Nodup := List.Nodup.filter _ h

/-- The flat dict `{"Patient_ID": ..., "Visit_ID": ..., **q.2.data}` of one
visit row. -/
def mergedDataRow (p : String × PatientRecord) (q : String × VisitRecord) :
    Dict String :=
  dupdate [("Patient_ID", p.2.patient_id), ("Visit_ID", q.1)] q.2.data

/-- The cell values `save_visit_data` writes. -/
def savedDataRows (colOrder : List String) (ps : List (String × PatientRecord)) :
    List (List String) :=
  ps.flatMap (fun p => p.2.visits.map (fun q =>
    colOrder.map (fun f => (dget (mergedDataRow p q) f).getD "")))

/-- The fixed notes-file schema. -/
def notesHeader : List String := ["Patient_ID", "Visit_ID", "Note_ID", "Note_text"]

/-- The cell values `save_visit_notes` writes. -/
def savedNoteRows (ps : List (String × PatientRecord)) : List (List String) :=
  ps.flatMap (fun p => p.2.visits.flatMap (fun q => q.2.notes.map (fun note =>
    notesHeader.map (fun f =>
      (dget (dupdate [("Patient_ID", p.2.patient_id), ("Visit_ID", q.1)] note) f).getD ""))))

theorem dget_mergedDataRow (p : String × PatientRecord) (q : String × VisitRecord)
    (hnd : (q.2.data.map (·.1)).Nodup) (f : String) :
    dget (mergedDataRow p q) f =
      (dget q.2.data f).orElse
        (fun _ => dget [("Patient_ID", p.2.patient_id), ("Visit_ID", q.1)] f) := by
  exact dget_dupdate _ _ _ (by simpa [dkeys] using hnd)

theorem get_visit_notes_rows_eq (db : PatientDatabase) :
    db.get_visit_notes_rows = db.patients.flatMap (fun p =>
      p.2.visits.flatMap (fun q => q.2.notes.map (fun note =>
        dupdate [("Patient_ID", p.2.patient_id), ("Visit_ID", q.1)] note))) := by
  unfold PatientDatabase.get_visit_notes_rows
  rw [foldl_append_flatMap]
  simp only [foldl_append_flatMap, List.nil_append]

/-- Phase A1: under the round-trip hypotheses the visit-data save succeeds and
produces exactly the header plus `savedDataRows`. -/
theorem save_visit_data_good (db : PatientDatabase) (colOrder : List String)
    (hgood : goodStore db colOrder) :
    db.save_visit_data colOrder = some ⟨colOrder, savedDataRows colOrder db.patients⟩ := by
  obtain ⟨hcnd, hpid, hvid, hpnd, hps⟩ := hgood
  have hall : db.get_visit_data_rows.all
      (fun r => r.all (fun pr => colOrder.contains pr.1)) = true := by
    rw [List.all_eq_true]
    intro r hr
    rw [get_visit_data_rows_eq] at hr
    rw [List.mem_flatMap] at hr
    obtain ⟨p, hp, hr⟩ := hr
    rw [List.mem_map] at hr
    obtain ⟨q, hq, hr⟩ := hr
    subst hr
    rw [List.all_eq_true]
    intro pr hpr
    have hk : pr.1 ∈ dkeys (mergedDataRow p q) :=
      List.mem_map.2 ⟨pr, hpr, rfl⟩
    have hk' := dkeys_dupdate_mem _ _ _ hk
    obtain ⟨hpne, hpidq, hvnd, hqs⟩ := hps p hp
    obtain ⟨hqne, hperm, hnotes⟩ := hqs q hq
    apply List.elem_eq_true_of_mem
    rcases hk' with hbase | hdata
    · have hb : pr.1 = "Patient_ID" ∨ pr.1 = "Visit_ID" := by simpa [dkeys] using hbase
      rcases hb with h | h
      · rw [h]; exact hpid
      · rw [h]; exact hvid
    · have hx : pr.1 ∈ extrasOf colOrder := hperm.mem_iff.1 (by simpa [dkeys] using hdata)
      exact ((mem_extrasOf colOrder pr.1).1 hx).1
  unfold PatientDatabase.save_visit_data
  rw [mapM_writeRow, if_pos hall]
  rw [get_visit_data_rows_eq, List.map_flatMap]
  unfold savedDataRows
  simp only [List.map_map]
  rfl

/-- Phase A2: under the round-trip hypotheses the notes save succeeds and
produces exactly the fixed header plus `savedNoteRows`. -/
theorem save_visit_notes_good (db : PatientDatabase) (colOrder : List String)
    (hgood : goodStore db colOrder) :
    db.save_visit_notes = some ⟨notesHeader, savedNoteRows db.patients⟩ := by
  obtain ⟨hcnd, hpid, hvid, hpnd, hps⟩ := hgood
  have hall : db.get_visit_notes_rows.all
      (fun r => r.all (fun pr => notesHeader.contains pr.1)) = true := by
    rw [List.all_eq_true]
    intro r hr
    rw [get_visit_notes_rows_eq] at hr
    rw [List.mem_flatMap] at hr
    obtain ⟨p, hp, hr⟩ := hr
    rw [List.mem_flatMap] at hr
    obtain ⟨q, hq, hr⟩ := hr
    rw [List.mem_map] at hr
    obtain ⟨note, hnote, hr⟩ := hr
    subst hr
    rw [List.all_eq_true]
    intro pr hpr
    have hk : pr.1 ∈ dkeys
        (dupdate [("Patient_ID", p.2.patient_id), ("Visit_ID", q.1)] note) :=
      List.mem_map.2 ⟨pr, hpr, rfl⟩
    have hk' := dkeys_dupdate_mem _ _ _ hk
    obtain ⟨hpne, hpidq, hvnd, hqs⟩ := hps p hp
    obtain ⟨hqne, hperm, hnotes⟩ := hqs q hq
    obtain ⟨hnid, hshape⟩ := hnotes note hnote
    apply List.elem_eq_true_of_mem
    rcases hk' with hbase | hdata
    · have hb : pr.1 = "Patient_ID" ∨ pr.1 = "Visit_ID" := by simpa [dkeys] using hbase
      rcases hb with h | h
      · rw [h]; simp [notesHeader]
      · rw [h]; simp [notesHeader]
    · rw [hshape] at hdata
      have hb : pr.1 = "Note_ID" ∨ pr.1 = "Note_text" := by simpa [dkeys] using hdata
      rcases hb with h | h
      · rw [h]; simp [notesHeader]
      · rw [h]; simp [notesHeader]
  unfold PatientDatabase.save_visit_notes
  unfold notesHeader at hall
  rw [mapM_writeRow, if_pos hall]
  rw [get_visit_notes_rows_eq, List.map_flatMap]
  unfold savedNoteRows
  simp only [List.map_flatMap, List.map_map]
  rfl

theorem zip_self_map {α β : Type} (l : List α) (g : α → β) :
    l.zip (l.map g) = l.map (fun a => (a, g a)) := by
  induction l with
  | nil => rfl
  | cons a rest ih => simp [List.zip_cons_cons, ih]

/-- The visit's field dict as it comes back from the data file: non-id columns
in header order, values from the original data (`""` for a missing key). -/
def reloadVisitData (extras : List String) (q : String × VisitRecord) : Dict String :=
  extras.map (fun k => (k, (dget q.2.data k).getD ""))

theorem dget_reloadVisitData (extras : List String) (q : String × VisitRecord)
    (hnd : extras.Nodup) (hperm : (q.2.data.map (·.1)).Perm extras) (k : String) :
    dget (reloadVisitData extras q) k = dget q.2.data k := by
  unfold reloadVisitData
  rw [dget_graph _ _ _ hnd]
  by_cases hk : k ∈ extras
  · rw [if_pos hk]
    cases hd : dget q.2.data k with
    | none =>
      exact absurd ((dget_eq_none_iff _ _).1 hd)
        (by simpa [dkeys] using hperm.mem_iff.2 hk)
    | some v => simp [hd]
  · rw [if_neg hk]
    exact ((dget_eq_none_iff _ _).2 (by simpa [dkeys] using fun hm => hk (hperm.mem_iff.1 hm))).symm

theorem data_keys_nodup (colOrder : List String) (q : String × VisitRecord)
    (hcnd : colOrder.Nodup) (hperm : (q.2.data.map (·.1)).Perm (extrasOf colOrder)) :
    (q.2.data.map (·.1)).Nodup :=
  hperm.nodup_iff.2 (extrasOf_nodup colOrder hcnd)

theorem dget_merged_pid (colOrder : List String) (p : String × PatientRecord)
    (q : String × VisitRecord) (hcnd : colOrder.Nodup)
    (hperm : (q.2.data.map (·.1)).Perm (extrasOf colOrder)) :
    dget (mergedDataRow p q) "Patient_ID" = some p.2.patient_id := by
  rw [dget_mergedDataRow p q (data_keys_nodup colOrder q hcnd hperm)]
  have h1 : dget q.2.data "Patient_ID" = none := by
    rw [dget_eq_none_iff]
    intro hm
    have := hperm.mem_iff.1 (by simpa [dkeys] using hm)
    exact ((mem_extrasOf colOrder _).1 this).2.1 rfl
  rw [h1]
  simp [dget, Option.orElse]

theorem dget_merged_vid (colOrder : List String) (p : String × PatientRecord)
    (q : String × VisitRecord) (hcnd : colOrder.Nodup)
    (hperm : (q.2.data.map (·.1)).Perm (extrasOf colOrder)) :
    dget (mergedDataRow p q) "Visit_ID" = some q.1 := by
  rw [dget_mergedDataRow p q (data_keys_nodup colOrder q hcnd hperm)]
  have h1 : dget q.2.data "Visit_ID" = none := by
    rw [dget_eq_none_iff]
    intro hm
    have := hperm.mem_iff.1 (by simpa [dkeys] using hm)
    exact ((mem_extrasOf colOrder _).1 this).2.2 rfl
  rw [h1]
  simp [dget, Option.orElse]

theorem dget_merged_extra (colOrder : List String) (p : String × PatientRecord)
    (q : String × VisitRecord) (hcnd : colOrder.Nodup)
    (hperm : (q.2.data.map (·.1)).Perm (extrasOf colOrder)) (f : String)
    (hf : f ∈ extrasOf colOrder) :
    (dget (mergedDataRow p q) f).getD "" = (dget q.2.data f).getD "" := by
  rw [dget_mergedDataRow p q (data_keys_nodup colOrder q hcnd hperm)]
  cases hd : dget q.2.data f with
  | some v => simp [Option.orElse]
  | none =>
    obtain ⟨-, hf1, hf2⟩ := (mem_extrasOf colOrder f).1 hf
    have hp1 : ¬ "Patient_ID" = f := fun h => hf1 h.symm
    have hp2 : ¬ "Visit_ID" = f := fun h => hf2 h.symm
    simp [Option.orElse, dget, hp1, hp2]

theorem readerRow_saved (colOrder : List String) (g : String → String)
    (hcnd : colOrder.Nodup) :
    readerRow colOrder (colOrder.map g) = colOrder.map (fun f => (f, g f)) := by
  unfold readerRow
  rw [zip_left_full _ _ _ (by rw [List.length_map])]
  rw [zip_self_map]
  exact fromItems_of_nodup _ (by simpa [List.map_map, Function.comp_def] using hcnd)

/-- One saved visit row, fed back through `load_data_row`: the patient is looked
up (or synthesized) under its own id and `add_visit` runs with the reloaded
field dict. -/
theorem load_data_row_saved (colOrder : List String) (p : String × PatientRecord)
    (q : String × VisitRecord) (db0 : PatientDatabase)
    (hcnd : colOrder.Nodup) (hpid : "Patient_ID" ∈ colOrder)
    (hvid : "Visit_ID" ∈ colOrder)
    (hperm : (q.2.data.map (·.1)).Perm (extrasOf colOrder))
    (hpne : p.2.patient_id ≠ "") (hqne : q.1 ≠ "") :
    load_data_row colOrder db0
        (colOrder.map (fun f => (dget (mergedDataRow p q) f).getD "")) =
      { patients := dset db0.patients p.2.patient_id
          (((dget db0.patients p.2.patient_id).getD
              { patient_id := p.2.patient_id, visits := [] }).add_visit q.1
            (reloadVisitData (extrasOf colOrder) q) none) } := by
  have hr : readerRow colOrder
      (colOrder.map (fun f => (dget (mergedDataRow p q) f).getD "")) =
      colOrder.map (fun f => (f, (dget (mergedDataRow p q) f).getD "")) := by
    simpa using readerRow_saved colOrder
      (fun f => (dget (mergedDataRow p q) f).getD "") hcnd
  have hgp : dget (readerRow colOrder
      (colOrder.map (fun f => (dget (mergedDataRow p q) f).getD ""))) "Patient_ID" =
      some p.2.patient_id := by
    rw [hr, dget_graph _ _ _ hcnd, if_pos hpid, dget_merged_pid colOrder p q hcnd hperm]
    rfl
  have hgv : dget (readerRow colOrder
      (colOrder.map (fun f => (dget (mergedDataRow p q) f).getD ""))) "Visit_ID" =
      some q.1 := by
    rw [hr, dget_graph _ _ _ hcnd, if_pos hvid, dget_merged_vid colOrder p q hcnd hperm]
    rfl
  have hfilter : (readerRow colOrder
      (colOrder.map (fun f => (dget (mergedDataRow p q) f).getD ""))).filter
        (fun pr => pr.1 ≠ "Patient_ID" && pr.1 ≠ "Visit_ID") =
      reloadVisitData (extrasOf colOrder) q := by
    rw [hr, List.filter_map]
    unfold reloadVisitData
    have hfeq : colOrder.filter
        ((fun pr : String × String => pr.1 ≠ "Patient_ID" && pr.1 ≠ "Visit_ID") ∘
          (fun f => (f, (dget (mergedDataRow p q) f).getD ""))) = extrasOf colOrder := by
      unfold extrasOf
      apply List.filter_congr
      intro c _
      rfl
    rw [hfeq]
    apply List.map_congr_left
    intro f hf
    rw [dget_merged_extra colOrder p q hcnd hperm f hf]
  simp only [load_data_row]
  rw [hgp, hgv, hfilter]
  simp only [Option.getD_some]
  rw [if_neg (by simp [hpne, hqne])]

theorem add_visit_fresh (pr : PatientRecord) (vid : String) (data : Dict String)
    (hnd : (data.map (·.1)).Nodup) (habs : dget pr.visits vid = none) :
    pr.add_visit vid data none =
      { patient_id := pr.patient_id,
        visits := pr.visits ++ [(vid, { data := data, notes := [] })] } := by
  have hm : dmem pr.visits vid = false := by simp [dmem, habs]
  simp only [PatientRecord.add_visit, hm, Bool.false_eq_true, if_false]
  rw [dset_absent _ _ _ habs, dmodify_append_absent _ _ _ _ habs]
  have hdd : dupdate ([] : Dict String) data = data := fromItems_of_nodup data hnd
  simp [hdd]

/-- The record a patient comes back as after reloading the data file alone. -/
def reloadPatientRec (colOrder : List String) (p : String × PatientRecord) :
    PatientRecord :=
  { patient_id := p.1,
    visits := p.2.visits.map (fun q =>
      (q.1, { data := reloadVisitData (extrasOf colOrder) q, notes := [] })) }

theorem load_rows_visits (colOrder : List String) (p : String × PatientRecord)
    (hcnd : colOrder.Nodup) (hpid : "Patient_ID" ∈ colOrder)
    (hvid : "Visit_ID" ∈ colOrder) (hpne : p.2.patient_id ≠ "") :
    ∀ (vs : List (String × VisitRecord)) (l1 : Dict PatientRecord)
      (prAcc : PatientRecord),
      (∀ q ∈ vs, goodVisit (extrasOf colOrder) q) →
      (vs.map (·.1)).Nodup →
      (∀ q ∈ vs, dget prAcc.visits q.1 = none) →
      dget l1 p.2.patient_id = none →
      (vs.map (fun q => colOrder.map (fun f => (dget (mergedDataRow p q) f).getD ""))).foldl
          (load_data_row colOrder) { patients := l1 ++ [(p.2.patient_id, prAcc)] } =
        { patients := l1 ++ [(p.2.patient_id,
            { patient_id := prAcc.patient_id,
              visits := prAcc.visits ++ vs.map (fun q =>
                (q.1, { data := reloadVisitData (extrasOf colOrder) q, notes := [] })) })] } := by
  intro vs
  induction vs with
  | nil => intro l1 prAcc _ _ _ _; simp
  | cons q vs' ih =>
    intro l1 prAcc hgood hnd hfresh hl1
    obtain ⟨hqne, hperm, -⟩ := hgood q (by simp)
    rw [List.map_cons, List.foldl_cons]
    rw [load_data_row_saved colOrder p q _ hcnd hpid hvid hperm hpne hqne]
    have hget : dget (l1 ++ [(p.2.patient_id, prAcc)]) p.2.patient_id = some prAcc := by
      rw [dget_append, hl1]
      simp [dget, Option.orElse]
    rw [hget]
    simp only [Option.getD_some]
    rw [add_visit_fresh prAcc q.1 _
      (by have := data_keys_nodup colOrder q hcnd hperm
          simpa [reloadVisitData, List.map_map, Function.comp_def] using
            (extrasOf_nodup colOrder hcnd))
      (hfresh q (by simp))]
    rw [dset_replace l1 _ _ _ _ hl1]
    rw [List.map_cons] at hnd
    rw [List.nodup_cons] at hnd
    have hstep := ih l1
      (PatientRecord.mk prAcc.patient_id (prAcc.visits ++
        [(q.1, VisitRecord.mk (reloadVisitData (extrasOf colOrder) q) [])]))
      (fun q' hq' => hgood q' (by simp [hq']))
      hnd.2
      (fun q' hq' => by
        rw [dget_append, hfresh q' (by simp [hq'])]
        have hne : q.1 ≠ q'.1 := fun he => hnd.1 (he ▸ List.mem_map.2 ⟨q', hq', rfl⟩)
        simp [dget, hne, Option.orElse])
      hl1
    rw [hstep]
    simp [List.append_assoc]

theorem load_rows_patient (colOrder : List String) (p : String × PatientRecord)
    (db0 : PatientDatabase)
    (hcnd : colOrder.Nodup) (hpid : "Patient_ID" ∈ colOrder)
    (hvid : "Visit_ID" ∈ colOrder)
    (hgoodp : goodPatient (extrasOf colOrder) p)
    (habs : dget db0.patients p.1 = none) :
    (p.2.visits.map (fun q =>
        colOrder.map (fun f => (dget (mergedDataRow p q) f).getD ""))).foldl
        (load_data_row colOrder) db0 =
      { patients := db0.patients ++
          (if p.2.visits.isEmpty then []
           else [(p.1, reloadPatientRec colOrder p)]) } := by
  obtain ⟨hpne, hpeq, hvnd, hqs⟩ := hgoodp
  cases hv : p.2.visits with
  | nil => simp [hv]
  | cons q vs' =>
    obtain ⟨hqne, hperm, -⟩ := hqs q (by rw [hv]; simp)
    rw [List.map_cons, List.foldl_cons]
    rw [load_data_row_saved colOrder p q db0 hcnd hpid hvid hperm (hpeq ▸ hpne) hqne]
    rw [hpeq, habs]
    simp only [Option.getD_none]
    rw [add_visit_fresh _ q.1 _
      (by simpa [reloadVisitData, List.map_map, Function.comp_def] using
        (extrasOf_nodup colOrder hcnd))
      (by simp [dget])]
    rw [dset_absent _ _ _ habs]
    rw [hv] at hvnd
    rw [List.map_cons, List.nodup_cons] at hvnd
    have hlv := load_rows_visits colOrder p hcnd hpid hvid (hpeq ▸ hpne) vs'
      db0.patients
      (PatientRecord.mk p.1
        ([] ++ [(q.1, VisitRecord.mk (reloadVisitData (extrasOf colOrder) q) [])]))
      (fun q' hq' => hqs q' (by rw [hv]; simp [hq']))
      hvnd.2
      (fun q' hq' => by
        have hne : q.1 ≠ q'.1 := fun he => hvnd.1 (he ▸ List.mem_map.2 ⟨q', hq', rfl⟩)
        simp [dget, hne])
      (hpeq ▸ habs)
    rw [hpeq] at hlv
    rw [hlv]
    simp [reloadPatientRec, hv]

theorem load_rows_all (colOrder : List String)
    (hcnd : colOrder.Nodup) (hpid : "Patient_ID" ∈ colOrder)
    (hvid : "Visit_ID" ∈ colOrder) :
    ∀ (ps : List (String × PatientRecord)) (db0 : PatientDatabase),
      (ps.map (·.1)).Nodup →
      (∀ p ∈ ps, goodPatient (extrasOf colOrder) p) →
      (∀ p ∈ ps, dget db0.patients p.1 = none) →
      (savedDataRows colOrder ps).foldl (load_data_row colOrder) db0 =
        { patients := db0.patients ++
            (ps.filter (fun p => !p.2.visits.isEmpty)).map
              (fun p => (p.1, reloadPatientRec colOrder p)) } := by
  intro ps
  induction ps with
  | nil => intro db0 _ _ _; simp [savedDataRows]
  | cons p ps' ih =>
    intro db0 hnd hgood habs
    rw [savedDataRows, List.flatMap_cons, List.foldl_append]
    rw [load_rows_patient colOrder p db0 hcnd hpid hvid (hgood p (by simp))
      (habs p (by simp))]
    rw [List.map_cons, List.nodup_cons] at hnd
    have hih := ih { patients := db0.patients ++
        (if p.2.visits.isEmpty then [] else [(p.1, reloadPatientRec colOrder p)]) }
      hnd.2
      (fun p' hp' => hgood p' (by simp [hp']))
      (fun p' hp' => by
        rw [dget_append, habs p' (by simp [hp'])]
        have hne : p.1 ≠ p'.1 := fun he => hnd.1 (he ▸ List.mem_map.2 ⟨p', hp', rfl⟩)
        cases hv : p.2.visits.isEmpty
        · simp [dget, hne, Option.orElse]
        · simp [dget, Option.orElse])
    rw [show savedDataRows colOrder ps' =
        ps'.flatMap (fun p => p.2.visits.map (fun q =>
          colOrder.map (fun f => (dget (mergedDataRow p q) f).getD ""))) from rfl] at hih
    rw [hih]
    cases hv : p.2.visits.isEmpty
    · simp [List.filter_cons, hv, List.append_assoc]
    · simp [List.filter_cons, hv]

theorem savedNoteRow_vals (pidv vidv : String) (note : Dict String)
    (hnote : goodNote note) :
    notesHeader.map (fun f =>
        (dget (dupdate [("Patient_ID", pidv), ("Visit_ID", vidv)] note) f).getD "") =
      [pidv, vidv, (dget note "Note_ID").getD "", (dget note "Note_text").getD ""] := by
  obtain ⟨hnid, hshape⟩ := hnote
  rw [hshape]
  simp [notesHeader, dupdate, dset, dget]

/-- One saved note row, fed back through `load_notes_row`: the patient and visit
are found (or synthesized) and the canonical note is appended. -/
theorem load_notes_row_saved (pidv vidv : String) (note : Dict String)
    (db0 : PatientDatabase) (hnote : goodNote note) (hpne : pidv ≠ "")
    (hvne : vidv ≠ "") :
    load_notes_row notesHeader db0
        [pidv, vidv, (dget note "Note_ID").getD "", (dget note "Note_text").getD ""] =
      { patients := dset db0.patients pidv
          (PatientRecord.mk
            ((dget db0.patients pidv).getD (PatientRecord.mk pidv [])).patient_id
            (dset ((dget db0.patients pidv).getD (PatientRecord.mk pidv [])).visits vidv
              (VisitRecord.mk
                ((dget ((dget db0.patients pidv).getD (PatientRecord.mk pidv [])).visits
                    vidv).getD (VisitRecord.mk [] [])).data
                (((dget ((dget db0.patients pidv).getD (PatientRecord.mk pidv [])).visits
                    vidv).getD (VisitRecord.mk [] [])).notes ++ [note])))) } := by
  obtain ⟨hnid, hshape⟩ := hnote
  have hr : readerRow notesHeader
      [pidv, vidv, (dget note "Note_ID").getD "", (dget note "Note_text").getD ""] =
      [("Patient_ID", pidv), ("Visit_ID", vidv),
       ("Note_ID", (dget note "Note_ID").getD ""),
       ("Note_text", (dget note "Note_text").getD "")] := by
    simp [readerRow, notesHeader, fromItems, dset]
  simp only [load_notes_row, hr]
  have h1 : dget [("Patient_ID", pidv), ("Visit_ID", vidv),
      ("Note_ID", (dget note "Note_ID").getD ""),
      ("Note_text", (dget note "Note_text").getD "")] "Patient_ID" = some pidv := by
    simp [dget]
  have h2 : dget [("Patient_ID", pidv), ("Visit_ID", vidv),
      ("Note_ID", (dget note "Note_ID").getD ""),
      ("Note_text", (dget note "Note_text").getD "")] "Visit_ID" = some vidv := by
    simp [dget]
  have h3 : dget [("Patient_ID", pidv), ("Visit_ID", vidv),
      ("Note_ID", (dget note "Note_ID").getD ""),
      ("Note_text", (dget note "Note_text").getD "")] "Note_ID" =
      some ((dget note "Note_ID").getD "") := by
    simp [dget]
  have h4 : dget [("Patient_ID", pidv), ("Visit_ID", vidv),
      ("Note_ID", (dget note "Note_ID").getD ""),
      ("Note_text", (dget note "Note_text").getD "")] "Note_text" =
      some ((dget note "Note_text").getD "") := by
    simp [dget]
  rw [h1, h2, h3, h4]
  simp only [Option.getD_some]
  rw [if_neg (by simp [hpne, hvne, hnid])]
  rw [← hshape]

theorem load_note_rows_visit (pidv vidv : String) (hpne : pidv ≠ "")
    (hvne : vidv ≠ "") :
    ∀ (notes : List (Dict String)) (db0 : PatientDatabase)
      (l1 l2 : Dict PatientRecord) (pr : PatientRecord)
      (m1 m2 : Dict VisitRecord) (vr : VisitRecord),
      (∀ note ∈ notes, goodNote note) →
      db0.patients = l1 ++ (pidv, pr) :: l2 →
      dget l1 pidv = none →
      pr.visits = m1 ++ (vidv, vr) :: m2 →
      dget m1 vidv = none →
      (notes.map (fun note => notesHeader.map (fun f =>
          (dget (dupdate [("Patient_ID", pidv), ("Visit_ID", vidv)] note) f).getD ""))).foldl
          (load_notes_row notesHeader) db0 =
        { patients := l1 ++ (pidv, PatientRecord.mk pr.patient_id
            (m1 ++ (vidv, VisitRecord.mk vr.data (vr.notes ++ notes)) :: m2)) :: l2 } := by
  intro notes
  induction notes with
  | nil =>
    intro db0 l1 l2 pr m1 m2 vr _ hdb hl1 hpr hm1
    simp only [List.map_nil, List.foldl_nil, List.append_nil]
    show db0 = { patients :=
      l1 ++ (pidv, PatientRecord.mk pr.patient_id (m1 ++ (vidv, vr) :: m2)) :: l2 }
    rw [← hpr]
    show db0 = { patients := l1 ++ (pidv, pr) :: l2 }
    rw [← hdb]
  | cons note rest ih =>
    intro db0 l1 l2 pr m1 m2 vr hgood hdb hl1 hpr hm1
    rw [List.map_cons, List.foldl_cons]
    rw [savedNoteRow_vals pidv vidv note (hgood note (by simp))]
    rw [load_notes_row_saved pidv vidv note db0 (hgood note (by simp)) hpne hvne]
    have hgp : dget db0.patients pidv = some pr := by
      rw [hdb, dget_append, hl1]
      simp [dget, Option.orElse]
    rw [hgp]
    simp only [Option.getD_some]
    have hgv : dget pr.visits vidv = some vr := by
      rw [hpr, dget_append, hm1]
      simp [dget, Option.orElse]
    rw [hgv]
    simp only [Option.getD_some]
    have hsetv : dset pr.visits vidv (VisitRecord.mk vr.data (vr.notes ++ [note])) =
        m1 ++ (vidv, VisitRecord.mk vr.data (vr.notes ++ [note])) :: m2 := by
      rw [hpr]
      exact dset_replace m1 vidv vr _ m2 hm1
    rw [hsetv]
    have hsetp : dset db0.patients pidv (PatientRecord.mk pr.patient_id
        (m1 ++ (vidv, VisitRecord.mk vr.data (vr.notes ++ [note])) :: m2)) =
        l1 ++ (pidv, PatientRecord.mk pr.patient_id
          (m1 ++ (vidv, VisitRecord.mk vr.data (vr.notes ++ [note])) :: m2)) :: l2 := by
      rw [hdb]
      exact dset_replace l1 pidv pr _ l2 hl1
    rw [hsetp]
    have hnext := ih { patients := l1 ++ (pidv, PatientRecord.mk pr.patient_id
        (m1 ++ (vidv, VisitRecord.mk vr.data (vr.notes ++ [note])) :: m2)) :: l2 }
      l1 l2
      (PatientRecord.mk pr.patient_id
        (m1 ++ (vidv, VisitRecord.mk vr.data (vr.notes ++ [note])) :: m2))
      m1 m2 (VisitRecord.mk vr.data (vr.notes ++ [note]))
      (fun n hn => hgood n (by simp [hn]))
      rfl hl1 rfl hm1
    rw [hnext]
    simp [List.append_assoc]

theorem load_note_rows_patient (colOrder : List String) (pidv : String)
    (hpne : pidv ≠ "") :
    ∀ (ovs : List (String × VisitRecord)) (db0 : PatientDatabase)
      (l1 l2 : Dict PatientRecord) (curId : String) (m1 : Dict VisitRecord),
      (∀ q ∈ ovs, goodVisit (extrasOf colOrder) q) →
      (ovs.map (·.1)).Nodup →
      (∀ q ∈ ovs, dget m1 q.1 = none) →
      db0.patients = l1 ++ (pidv, PatientRecord.mk curId
        (m1 ++ ovs.map (fun q =>
          (q.1, VisitRecord.mk (reloadVisitData (extrasOf colOrder) q) [])))) :: l2 →
      dget l1 pidv = none →
      (ovs.flatMap (fun q => q.2.notes.map (fun note => notesHeader.map (fun f =>
          (dget (dupdate [("Patient_ID", pidv), ("Visit_ID", q.1)] note) f).getD "")))).foldl
          (load_notes_row notesHeader) db0 =
        { patients := l1 ++ (pidv, PatientRecord.mk curId
            (m1 ++ ovs.map (fun q =>
              (q.1, VisitRecord.mk (reloadVisitData (extrasOf colOrder) q) q.2.notes)))) :: l2 } := by
  intro ovs
  induction ovs with
  | nil =>
    intro db0 l1 l2 curId m1 _ _ _ hdb hl1
    simp only [List.map_nil, List.append_nil] at hdb
    simp only [List.flatMap_nil, List.foldl_nil, List.map_nil, List.append_nil]
    rw [← hdb]
  | cons q ovs' ih =>
    intro db0 l1 l2 curId m1 hgood hnd hm1 hdb hl1
    obtain ⟨hqne, hperm, hnotes⟩ := hgood q (by simp)
    rw [List.flatMap_cons, List.foldl_append]
    have hlnv := load_note_rows_visit pidv q.1 hpne hqne q.2.notes db0 l1 l2
      (PatientRecord.mk curId (m1 ++ (q.1, VisitRecord.mk
        (reloadVisitData (extrasOf colOrder) q) []) ::
        ovs'.map (fun q' =>
          (q'.1, VisitRecord.mk (reloadVisitData (extrasOf colOrder) q') []))))
      m1 (ovs'.map (fun q' =>
        (q'.1, VisitRecord.mk (reloadVisitData (extrasOf colOrder) q') [])))
      (VisitRecord.mk (reloadVisitData (extrasOf colOrder) q) [])
      hnotes (by rw [hdb]; simp) hl1 rfl (hm1 q (by simp))
    rw [hlnv]
    rw [List.map_cons, List.nodup_cons] at hnd
    have hih := ih (PatientDatabase.mk (l1 ++ (pidv, PatientRecord.mk curId
        (m1 ++ (q.1, VisitRecord.mk (reloadVisitData (extrasOf colOrder) q)
          ([] ++ q.2.notes)) ::
          ovs'.map (fun q' =>
            (q'.1, VisitRecord.mk (reloadVisitData (extrasOf colOrder) q') [])))) :: l2))
      l1 l2 curId
      (m1 ++ [(q.1, VisitRecord.mk (reloadVisitData (extrasOf colOrder) q) ([] ++ q.2.notes))])
      (fun q' hq' => hgood q' (by simp [hq']))
      hnd.2
      (fun q' hq' => by
        rw [dget_append, hm1 q' (by simp [hq'])]
        have hne : q.1 ≠ q'.1 := fun he => hnd.1 (he ▸ List.mem_map.2 ⟨q', hq', rfl⟩)
        simp [dget, hne, Option.orElse])
      (by simp [List.append_assoc])
      hl1
    rw [hih]
    simp [List.append_assoc]

theorem load_note_rows_all (colOrder : List String) :
    ∀ (ps : List (String × PatientRecord)) (db0 : PatientDatabase)
      (l1 : Dict PatientRecord),
      (ps.map (·.1)).Nodup →
      (∀ p ∈ ps, goodPatient (extrasOf colOrder) p) →
      (∀ p ∈ ps, dget l1 p.1 = none) →
      db0.patients = l1 ++ (ps.filter (fun p => !p.2.visits.isEmpty)).map
        (fun p => (p.1, reloadPatientRec colOrder p)) →
      (savedNoteRows ps).foldl (load_notes_row notesHeader) db0 =
        { patients := l1 ++ (ps.filter (fun p => !p.2.visits.isEmpty)).map
            (fun p => (p.1, PatientRecord.mk p.1 (p.2.visits.map (fun q =>
              (q.1, VisitRecord.mk (reloadVisitData (extrasOf colOrder) q) q.2.notes))))) } := by
  intro ps
  induction ps with
  | nil =>
    intro db0 l1 _ _ _ hdb
    simp only [List.filter_nil, List.map_nil, List.append_nil] at hdb
    simp only [savedNoteRows, List.flatMap_nil, List.foldl_nil, List.filter_nil,
      List.map_nil, List.append_nil]
    rw [← hdb]
  | cons p ps' ih =>
    intro db0 l1 hnd hgood hl1 hdb
    obtain ⟨hpne, hpeq, hvnd, hqs⟩ := hgood p (by simp)
    rw [savedNoteRows, List.flatMap_cons, List.foldl_append]
    rw [List.map_cons, List.nodup_cons] at hnd
    cases hv : p.2.visits.isEmpty
    · -- the patient has visits: its entry is present and its notes are appended
      have hvne : ¬ p.2.visits.isEmpty := by rw [hv]; exact Bool.false_ne_true
      rw [List.filter_cons_of_pos (by simpa using hvne)] at hdb
      rw [List.map_cons] at hdb
      rw [hpeq]
      have hlnp := load_note_rows_patient colOrder p.1 hpne p.2.visits db0 l1
        ((ps'.filter (fun p => !p.2.visits.isEmpty)).map
          (fun p => (p.1, reloadPatientRec colOrder p)))
        p.1 []
        (fun q hq => hqs q hq)
        hvnd
        (fun q _ => by simp [dget])
        (by rw [hdb]; rfl)
        (hl1 p (by simp))
      rw [hlnp]
      have hih := ih (PatientDatabase.mk (l1 ++ (p.1, PatientRecord.mk p.1
          ([] ++ p.2.visits.map (fun q =>
            (q.1, VisitRecord.mk (reloadVisitData (extrasOf colOrder) q) q.2.notes)))) ::
          (ps'.filter (fun p => !p.2.visits.isEmpty)).map
            (fun p => (p.1, reloadPatientRec colOrder p))))
        (l1 ++ [(p.1, PatientRecord.mk p.1
          ([] ++ p.2.visits.map (fun q =>
            (q.1, VisitRecord.mk (reloadVisitData (extrasOf colOrder) q) q.2.notes))))])
        hnd.2
        (fun p' hp' => hgood p' (by simp [hp']))
        (fun p' hp' => by
          rw [dget_append, hl1 p' (by simp [hp'])]
          have hne : p.1 ≠ p'.1 := fun he => hnd.1 (he ▸ List.mem_map.2 ⟨p', hp', rfl⟩)
          simp [dget, hne, Option.orElse])
        (by simp [List.append_assoc])
      simp only [savedNoteRows] at hih
      rw [hih]
      rw [List.filter_cons_of_pos (by simpa using hvne), List.map_cons]
      simp [List.append_assoc]
    · -- no visits: no data rows were written, no note rows either
      have hvemp : p.2.visits = [] := List.isEmpty_iff.1 hv
      rw [hvemp]
      simp only [List.flatMap_nil, List.foldl_nil]
      have hdb' : db0.patients = l1 ++
          (ps'.filter (fun p => !p.2.visits.isEmpty)).map
            (fun p => (p.1, reloadPatientRec colOrder p)) := by
        rw [hdb, List.filter_cons_of_neg (by simp [hv])]
      have hih := ih db0 l1 hnd.2 (fun p' hp' => hgood p' (by simp [hp']))
        (fun p' hp' => hl1 p' (by simp [hp'])) hdb'
      simp only [savedNoteRows] at hih
      rw [hih]
      rw [List.filter_cons_of_neg (by simp [hv])]

/-- The full round trip: save both files from `db`, then load them into a fresh
empty store (`load_*` treat a `none` file as missing). -/
def roundTripDb (db : PatientDatabase) (colOrder : List String) : PatientDatabase :=
  ((PatientDatabase.mk []).load_data (db.save_visit_data colOrder)).load_notes_data
    db.save_visit_notes

theorem roundTripDb_patients (db : PatientDatabase) (colOrder : List String)
    (hgood : goodStore db colOrder) :
    (roundTripDb db colOrder).patients =
      (db.patients.filter (fun p => !p.2.visits.isEmpty)).map
        (fun p => (p.1, PatientRecord.mk p.1 (p.2.visits.map (fun q =>
          (q.1, VisitRecord.mk (reloadVisitData (extrasOf colOrder) q) q.2.notes))))) := by
  obtain ⟨hcnd, hpid, hvid, hpnd, hps⟩ := hgood
  have hsd := save_visit_data_good db colOrder ⟨hcnd, hpid, hvid, hpnd, hps⟩
  have hsn := save_visit_notes_good db colOrder ⟨hcnd, hpid, hvid, hpnd, hps⟩
  unfold roundTripDb
  rw [hsd, hsn]
  have h1 : (PatientDatabase.mk []).load_data
      (some ⟨colOrder, savedDataRows colOrder db.patients⟩) =
      PatientDatabase.mk ([] ++ (db.patients.filter (fun p => !p.2.visits.isEmpty)).map
        (fun p => (p.1, reloadPatientRec colOrder p))) :=
    load_rows_all colOrder hcnd hpid hvid db.patients (PatientDatabase.mk [])
      hpnd hps (fun p _ => rfl)
  rw [h1]
  have h2 : (PatientDatabase.mk ([] ++
        (db.patients.filter (fun p => !p.2.visits.isEmpty)).map
          (fun p => (p.1, reloadPatientRec colOrder p)))).load_notes_data
      (some ⟨notesHeader, savedNoteRows db.patients⟩) =
      PatientDatabase.mk ([] ++ (db.patients.filter (fun p => !p.2.visits.isEmpty)).map
        (fun p => (p.1, PatientRecord.mk p.1 (p.2.visits.map (fun q =>
          (q.1, VisitRecord.mk (reloadVisitData (extrasOf colOrder) q) q.2.notes)))))) :=
    load_note_rows_all colOrder db.patients _ [] hpnd hps (fun p _ => rfl) rfl
  rw [h2]
  simp

/-- **C3 (amended)**: for a store whose save schema is duplicate-free and
contains the id columns, whose patient/visit ids are truthy and distinct, whose
field-key sets coincide with the schema's non-id columns, and whose notes are
canonical `{Note_ID, Note_text}` dicts with truthy ids, both saves succeed and
reloading the two files into a fresh store preserves the set of
(patient, visit, field-map) triples — field maps agree on every key — and every
visit's notes list exactly, in order. -/
theorem claim_C3_round_trip (db : PatientDatabase) (colOrder : List String)
    (hgood : goodStore db colOrder) :
    (db.save_visit_data colOrder).isSome ∧ db.save_visit_notes.isSome ∧
    ∀ pid vid,
      (((dget db.patients pid).bind (fun pr => dget pr.visits vid)) = none →
        ((dget (roundTripDb db colOrder).patients pid).bind
          (fun pr => dget pr.visits vid)) = none) ∧
      (∀ vr, ((dget db.patients pid).bind (fun pr => dget pr.visits vid)) = some vr →
        ∃ vr', ((dget (roundTripDb db colOrder).patients pid).bind
            (fun pr => dget pr.visits vid)) = some vr' ∧
          (∀ k, dget vr'.data k = dget vr.data k) ∧ vr'.notes = vr.notes) := by
  have hfinal := roundTripDb_patients db colOrder hgood
  obtain ⟨hcnd, hpid, hvid, hpnd, hps⟩ := hgood
  have hsd := save_visit_data_good db colOrder ⟨hcnd, hpid, hvid, hpnd, hps⟩
  have hsn := save_visit_notes_good db colOrder ⟨hcnd, hpid, hvid, hpnd, hps⟩
  refine ⟨by rw [hsd]; rfl, by rw [hsn]; rfl, ?_⟩
  intro pid vid
  constructor
  · intro hnone
    rw [hfinal, dget_map_keyed, dget_filter_nodup _ _ _ hpnd]
    cases hq : dget db.patients pid with
    | none => simp
    | some pr =>
      rw [hq] at hnone
      simp only [Option.some_bind] at hnone
      by_cases hemp : pr.visits.isEmpty
      · simp [hemp]
      · simp only [Bool.not_eq_true] at hemp
        simp [hemp, dget_map_keyed, hnone]
  · intro vr hvr
    rw [hfinal, dget_map_keyed, dget_filter_nodup _ _ _ hpnd]
    cases hq : dget db.patients pid with
    | none => rw [hq] at hvr; simp at hvr
    | some pr =>
      rw [hq] at hvr
      simp only [Option.some_bind] at hvr
      have hmemp := dget_mem _ _ _ hq
      have hmemv := dget_mem _ _ _ hvr
      have hperm := ((hps (pid, pr) hmemp).2.2.2 (vid, vr) hmemv).2.1
      have hemp : pr.visits.isEmpty = false := by
        cases he : pr.visits with
        | nil => rw [he] at hvr; simp [dget] at hvr
        | cons a l => simp [he]
      refine ⟨VisitRecord.mk (reloadVisitData (extrasOf colOrder) (vid, vr)) vr.notes,
        ?_, ?_, rfl⟩
      · simp [hemp, dget_map_keyed, hvr]
      · intro k
        exact dget_reloadVisitData _ _ (extrasOf_nodup colOrder hcnd) hperm k

/-- Save schema used by the round-trip witness. -/
def colOrderW : List String := ["Patient_ID", "Visit_ID", "Visit_time", "Race"]

/-- Witness for the amended C3 at the sample store: both saves succeed, the
(patient, visit) pair survives the round trip with its field value and its note
list intact, and no spurious pair appears. -/
theorem claim_C3_round_trip_witness :
    (dbW.save_visit_data colOrderW).isSome ∧
    dbW.save_visit_notes.isSome ∧
    (∃ vr', ((dget (roundTripDb dbW colOrderW).patients "p1").bind
        (fun pr => dget pr.visits "v1")) = some vr' ∧
      dget vr'.data "Race" = some "Asian" ∧ vr'.notes = [noteW]) ∧
    ((dget (roundTripDb dbW colOrderW).patients "p2").bind
      (fun pr => dget pr.visits "v1")) = none := by
  have h := claim_C3_round_trip dbW colOrderW (by decide)
  refine ⟨h.1, h.2.1, ?_, ?_⟩
  · obtain ⟨vr', hget, hdata, hnotes⟩ := (h.2.2 "p1" "v1").2 visitW (by decide)
    refine ⟨vr', hget, ?_, ?_⟩
    · rw [hdata "Race"]; decide
    · rw [hnotes]; decide
  · exact (h.2.2 "p2" "v1").1 (by decide)

/-- A store satisfying the claim's literal hypothesis (every field key lies in
`column_order`) but with a visit lacking one of the schema's columns. -/
def dbC3 : PatientDatabase :=
  PatientDatabase.mk [("p1", PatientRecord.mk "p1" [("v1", VisitRecord.mk [] [])])]

/-- C3 counterexample: with field keys merely *contained in* `column_order`
(here: no fields at all, schema column `X` unused), `DictWriter` pads the
missing column with `""` and the reload turns that padding into a real field —
the field-map key sets are not equal after the round trip. -/
theorem claim_C3_round_trip_cex :
    (∀ p ∈ dbC3.patients, ∀ q ∈ p.2.visits, ∀ k ∈ q.2.data.map (·.1),
      k ∈ ["Patient_ID", "Visit_ID", "X"]) ∧
    ((dget dbC3.patients "p1").bind (fun pr => dget pr.visits "v1")).map
      (fun vr => dget vr.data "X") = some none ∧
    ((dget (roundTripDb dbC3 ["Patient_ID", "Visit_ID", "X"]).patients "p1").bind
      (fun pr => dget pr.visits "v1")).map (fun vr => dget vr.data "X") =
      some (some "") := by
  refine ⟨by decide, by decide, by decide⟩

example : strptimeMDY "3/14/2024" = some ⟨2024, 3, 14⟩ := by decide
example : strptimeMDY "13/40/2024" = none := by decide
example : strptimeMDY "02/29/2023" = none := by decide
example : strptimeMDY "02/29/2024" = some ⟨2024, 2, 29⟩ := by decide
example : strptimeMDY "1/1/02024" = none := by decide
example : viewNotesParseDate "1/1/02024" = some ⟨2024, 1, 1⟩ := by decide
example : viewNotesParseDate "1/ 1/2024" = some ⟨2024, 1, 1⟩ := by decide
example : strptimeMDY "1/ 1/2024" = none := by decide
example : pyStrip "  3/14/2024 " = "3/14/2024" := by decide
example : pyInt "1_2".data = some 12 := by decide
example : pyInt "1__2".data = none := by decide

end ClassRepo
